import Mathlib

/-!
Verification development for the gopenpgp decryption core.

The Go sources under verification are `crypto/decryption_core.go` and
`crypto/decryption_handle_builder.go`. Pure data is embedded directly; the
stateful Go readers become explicit values: the packet codec collaborator
turns a ciphertext byte stream into a typed packet sequence, so a message
stream is embedded as a `List Packet`, and each decryption attempt parses
that typed sequence from its head. External collaborators (the packet
codec, the openpgp engine, the key-ring store) are modelled from the
specification and marked as such in their doc comments; everything else is
translated from the Go source.
-/

namespace Gopenpgp

/-- Errors as produced by the Go code: `errors.New` builds a message error and
`errors.Wrap` annotates an inner error with a message. -/
inductive GoError where
  | msg (s : String)
  | wrap (inner : GoError) (s : String)
deriving DecidableEq, Repr

/-- The `github.com/pkg/errors` function `Wrap` returns nil when the wrapped
error is nil; this models that behaviour on `Option GoError`. -/
def GoError.wrapOpt : Option GoError → String → Option GoError
  | none, _ => none
  | some e, s => some (.wrap e s)

/-- Boolean success test for an `Except` result. -/
def exceptOkB {α : Type} : Except GoError α → Bool
  | .ok _ => true
  | .error _ => false

/-- Error component of an `Except` result, as the Go pattern of returning a
nullable error. -/
def exceptErr {α : Type} : Except GoError α → Option GoError
  | .ok _ => none
  | .error e => some e

/-- Declared type of a signature: `packet.SigTypeBinary` or `packet.SigTypeText`. -/
inductive SigType where
  | binary
  | text
deriving DecidableEq, Repr

/-- Metadata of a literal-data packet. -/
structure LiteralMetadata where
  filename : String := ""
  modificationTime : Int := 0
  isBinary : Bool := true
  isUTF8Text : Bool := false
deriving DecidableEq, Repr

/-- Typed packets as produced by the external packet codec (spec section 6).
Key-exchange packets carry the credential they were locked under together
with the wrapped session key; encrypted-data packets carry the identifier of
the session key that decrypts them and their decrypted packet sequence. -/
inductive Packet where
  | encryptedKey (keyId : Nat) (sessionKey : List Nat)
  | symmetricKeyEncrypted (password : List Nat) (sessionKey : List Nat)
  | symmetricallyEncrypted (sessionKeyId : List Nat) (body : List Packet)
  | aeadEncrypted (sessionKeyId : List Nat) (body : List Packet)
  | onePassSignature (sigType : SigType)
  | signaturePacket (sigType : SigType)
  | literalData (metadata : LiteralMetadata) (body : List Nat)
  | marker

/-- A packet is a key-exchange packet: `*packet.EncryptedKey` or
`*packet.SymmetricKeyEncrypted`. -/
def Packet.isKeyExchange : Packet → Bool
  | .encryptedKey _ _ => true
  | .symmetricKeyEncrypted _ _ => true
  | _ => false

/-- A packet is an encrypted-data packet: `*packet.SymmetricallyEncrypted` or
`*packet.AEADEncrypted`. -/
def Packet.isEncryptedData : Packet → Bool
  | .symmetricallyEncrypted _ _ => true
  | .aeadEncrypted _ _ => true
  | _ => false

/-- A packet is an asymmetric key-exchange packet. -/
def Packet.isEncryptedKeyPacket : Packet → Bool
  | .encryptedKey _ _ => true
  | _ => false

/-- A session key as configured on the decryption handle: raw key bytes, the
cipher algorithm when one is known, and the v6 flag (v6 keys carry the
algorithm inside the packet). -/
structure SessionKey where
  Key : List Nat
  algo : Option Nat := none
  v6 : Bool := false
deriving DecidableEq, Repr

/-- The session key method `GetCipherFunc`: resolves the configured algorithm
or fails when it is unknown. -/
def SessionKey.GetCipherFunc (sk : SessionKey) : Except GoError Nat :=
  match sk.algo with
  | some c => .ok c
  | none => .error (.msg "gopenpgp: unsupported cipher function")

/-- Modelled from the spec: the decrypt operation of an encrypted-data packet
(spec section 6). An integrity-checked cipher mode rejects an incorrect key
deterministically, so decryption succeeds exactly when the supplied key is
the session key the packet was encrypted under. -/
def packetDecrypt (sessionKeyId : List Nat) (body : List Packet) (_dc : Nat)
    (key : List Nat) : Except GoError (List Packet) :=
  if key = sessionKeyId then .ok body
  else .error (.msg "openpgp: decryption with session key failed: integrity check failed")

/-- The body of the encrypted-data case of `decryptStreamWithSessionKey`
(decryption_core.go lines 180 to 196): for a non-v6 session key the cipher
function is resolved first, then the data packet is decrypted. -/
def decryptDataPacketWithSessionKey (sessionKey : SessionKey)
    (sessionKeyId : List Nat) (body : List Packet) : Except GoError (List Packet) :=
  if sessionKey.v6 then
    match packetDecrypt sessionKeyId body 0 sessionKey.Key with
    | .ok decrypted => .ok decrypted
    | .error e => .error (.wrap e "gopenpgp: unable to decrypt symmetric packet")
  else
    match sessionKey.GetCipherFunc with
    | .error e => .error (.wrap e "gopenpgp: unable to decrypt with session key")
    | .ok dc =>
      match packetDecrypt sessionKeyId body dc sessionKey.Key with
      | .ok decrypted => .ok decrypted
      | .error e => .error (.wrap e "gopenpgp: unable to decrypt symmetric packet")

/-- `decryptStreamWithSessionKey` (decryption_core.go lines 164 to 202): walk
the packet stream, ignore key-exchange packets, decrypt the first
encrypted-data packet with the given session key; any other packet before the
data packet is an invalid packet type, and a stream without a data packet
fails when the packet reader reaches the end of input. -/
def decryptStreamWithSessionKey (sessionKey : SessionKey)
    (messageReader : List Packet) : Except GoError (List Packet) :=
  match messageReader with
  | [] => .error (.wrap (.msg "EOF") "gopenpgp: unable to read symmetric packet")
  | .encryptedKey _ _ :: rest => decryptStreamWithSessionKey sessionKey rest
  | .symmetricKeyEncrypted _ _ :: rest => decryptStreamWithSessionKey sessionKey rest
  | .symmetricallyEncrypted sid body :: _ => decryptDataPacketWithSessionKey sessionKey sid body
  | .aeadEncrypted sid body :: _ => decryptDataPacketWithSessionKey sessionKey sid body
  | _ :: _ => .error (.msg "gopenpgp: invalid packet type")

/-- A session key candidate works on a given encrypted-data packet: its bytes
match and, unless it is a v6 key, its cipher algorithm is known. -/
def sessionKeyWorks (sk : SessionKey) (sessionKeyId : List Nat) : Bool :=
  (sk.v6 || sk.algo.isSome) && decide (sk.Key = sessionKeyId)

/-- Plaintext reader chains built by the decryption core: a raw byte source,
the sanitizing filter `internal.NewSanitizeReader`, and the closing wrapper
`checkReader` of decryption_core.go line 160. -/
inductive PlainReader where
  | raw (bytes : List Nat)
  | sanitize (inner : PlainReader)
  | check (inner : PlainReader)
deriving DecidableEq, Repr

/-- Modelled from the spec: the sanitizing filter normalizes line endings
(spec section 4.2); each of CR, LF and CRLF becomes a single LF. -/
def sanitizeBytes : List Nat → List Nat
  | [] => []
  | [b] => if b = 13 then [10] else [b]
  | b :: b2 :: rest =>
    if b = 13 then
      if b2 = 10 then 10 :: sanitizeBytes rest
      else 10 :: sanitizeBytes (b2 :: rest)
    else b :: sanitizeBytes (b2 :: rest)

/-- The bytes a caller observes when draining a reader chain. -/
def PlainReader.readAll : PlainReader → List Nat
  | .raw bytes => bytes
  | .sanitize inner => sanitizeBytes inner.readAll
  | .check inner => inner.readAll

/-- One signature candidate of the openpgp message details, reduced to the
field the decryption core reads: its declared signature type. -/
structure SignatureCandidate where
  SigType : SigType
deriving DecidableEq, Repr

/-- The openpgp `MessageDetails` fields the decryption core reads and writes. -/
structure MessageDetails where
  IsSigned : Bool := false
  SignatureCandidates : List SignatureCandidate := []
  UnverifiedBody : PlainReader
  LiteralData : Option LiteralMetadata := none
  SessionKey : Option (List Nat) := none
deriving DecidableEq, Repr

/-- One entity of a key ring: its key id and whether it can decrypt. -/
structure Entity where
  keyId : Nat
  canDecrypt : Bool := true
deriving DecidableEq, Repr

/-- A key ring is its entity list. -/
structure KeyRing where
  entities : List Entity := []
deriving DecidableEq, Repr

/-- A key as handed to the builder. The `bad` flag models a key the external
key-ring collaborator rejects. -/
structure Key where
  keyId : Nat
  canDecrypt : Bool := true
  bad : Bool := false
deriving DecidableEq, Repr

/-- Modelled from the spec: `NewKeyRing` of the external key-ring collaborator
(spec section 6) builds a ring holding the one key, failing on an unusable key. -/
def NewKeyRing (key : Key) : Except GoError KeyRing :=
  if key.bad then .error (.msg "gopenpgp: unable to add key to the keyring")
  else .ok { entities := [{ keyId := key.keyId, canDecrypt := key.canDecrypt }] }

/-- Modelled from the spec: `AddKey` of the external key-ring collaborator
appends one key to the ring, failing on an unusable key and leaving the ring
unchanged in that case. -/
def KeyRing.AddKey (kr : KeyRing) (key : Key) : Except GoError KeyRing :=
  if key.bad then .error (.msg "gopenpgp: unable to add key to the keyring")
  else .ok { entities := kr.entities ++ [{ keyId := key.keyId, canDecrypt := key.canDecrypt }] }

/-- An application-defined verification context. -/
structure VerificationContext where
  Value : String := ""
  IsRequired : Bool := false
deriving DecidableEq, Repr

/-- The `packet.Config` fields the decryption core sets: session-key caching,
the intended-recipients check, a constant clock value, known notations, and
the packet-sequence check (true by default in the external engine). -/
structure Config where
  CacheSessionKey : Bool := false
  CheckIntendedRecipients : Option Bool := none
  Time : Int := 0
  KnownNotations : Bool := false
  CheckPacketSequence : Bool := true
deriving DecidableEq, Repr

/-- The one-shot password prompt closure returned by `createPasswordPrompt`:
its captured password and its `firstTimeCalled` flag. -/
structure PasswordPrompt where
  password : List Nat
  firstTimeCalled : Bool := true
deriving DecidableEq, Repr

/-- One invocation of the prompt closure of `createPasswordPrompt`
(decryption_core.go lines 289 to 297): the first call yields the password and
clears the flag; every later call returns the terminal wrong-password error. -/
def PasswordPrompt.call (p : PasswordPrompt) :
    Except GoError (List Nat) × PasswordPrompt :=
  if p.firstTimeCalled then (.ok p.password, { p with firstTimeCalled := false })
  else (.error (.msg "gopenpgp: wrong password in symmetric decryption"), p)

/-- `createPasswordPrompt` (decryption_core.go lines 284 to 298): a nil
password yields no prompt; otherwise a fresh one-shot prompt closure over the
password. -/
def createPasswordPrompt : Option (List Nat) → Option PasswordPrompt
  | none => none
  | some password => some { password := password }

/-- Modelled from the spec: unlocking one symmetric key-exchange packet with
the prompt (spec section 4.2). The prompt is asked for a password; a wrong
guess fails to produce a valid session key, so the engine asks again, and the
prompt answers every ask after the first with the terminal wrong-password
error, which the engine surfaces. The prompt created by
`createPasswordPrompt` never answers twice, so the final fallthrough arm is
unreachable for it and mirrors the terminal failure. -/
def skeskUnlock (prompt : PasswordPrompt) (skeskPassword wrapped : List Nat) :
    Except GoError (List Nat) × PasswordPrompt :=
  match prompt.call with
  | (.error e, p1) => (.error e, p1)
  | (.ok pw, p1) =>
    if pw = skeskPassword then (.ok wrapped, p1)
    else
      match p1.call with
      | (.error e, p2) => (.error e, p2)
      | (.ok _, p2) =>
        (.error (.msg "gopenpgp: wrong password in symmetric decryption"), p2)

/-- Modelled from the spec: trying each recovered session key, in recovery
order, on the encrypted-data packet. -/
def tryKeys (cands : List (List Nat)) (sessionKeyId : List Nat)
    (body : List Packet) : Option (List Packet) :=
  match cands with
  | [] => none
  | k :: rest => if k = sessionKeyId then some body else tryKeys rest sessionKeyId body

/-- Modelled from the spec: the trailing signature packets after the literal
data packet, or parse failure when another packet follows the literal data. -/
def parseTrailingSignatures : List Packet → Option (List SigType)
  | [] => some []
  | .signaturePacket t :: rest =>
    (parseTrailingSignatures rest).map (fun ts => t :: ts)
  | _ => none

/-- Modelled from the spec: parsing a decrypted literal-data packet sequence
(spec sections 4.3 and 6): one-pass signature packets, then the literal-data
packet, then trailing signature packets. The signature candidates are the
one-pass packets in encounter order. -/
def parseLiteralAux (onePassTypes : List SigType) :
    List Packet → Except GoError MessageDetails
  | .onePassSignature t :: rest => parseLiteralAux (onePassTypes ++ [t]) rest
  | .literalData l body :: rest =>
    match parseTrailingSignatures rest with
    | none => .error (.msg "openpgp: malformed message: unexpected packet after literal data")
    | some _ =>
      .ok { IsSigned := !onePassTypes.isEmpty,
            SignatureCandidates := onePassTypes.map (fun t => { SigType := t }),
            UnverifiedBody := .raw body,
            LiteralData := some l }
  | _ => .error (.msg "openpgp: malformed message: no literal data packet")

/-- Modelled from the spec: a decrypted packet sequence is a literal-data
message. -/
def parseLiteralSequence (stream : List Packet) : Except GoError MessageDetails :=
  parseLiteralAux [] stream

/-- Modelled from the spec: the walk of the external `openpgp.ReadMessage`
(spec sections 4.2 and 6). Asymmetric key-exchange packets matched by a
decryption-capable entity and symmetric key-exchange packets unlocked through
the prompt contribute session key candidates, in encounter order; the first
encrypted-data packet is decrypted with the first matching candidate and its
content parsed as a literal-data sequence. Any other packet before the data
packet is a fatal malformed-message error when the packet-sequence check is
on; with the check off the stream is parsed as a bare literal-data sequence
from that packet on. -/
def readMessageLoop (keyring : List Entity) (config : Config) :
    List Packet → Option PasswordPrompt → List (List Nat) →
    Except GoError MessageDetails
  | [], _, _ => .error (.msg "openpgp: invalid data: no encrypted data found")
  | .encryptedKey kid sk :: rest, prompt, cands =>
    if keyring.any (fun e => e.canDecrypt && e.keyId == kid) then
      readMessageLoop keyring config rest prompt (cands ++ [sk])
    else
      readMessageLoop keyring config rest prompt cands
  | .symmetricKeyEncrypted skPwd wrapped :: rest, prompt, cands =>
    match prompt with
    | none => readMessageLoop keyring config rest none cands
    | some pr =>
      match skeskUnlock pr skPwd wrapped with
      | (.error e, _) => .error e
      | (.ok key, pr2) => readMessageLoop keyring config rest (some pr2) (cands ++ [key])
  | .symmetricallyEncrypted sid body :: _, _, cands =>
    match tryKeys cands sid body with
    | none => .error (.msg "openpgp: incorrect key")
    | some decrypted => parseLiteralSequence decrypted
  | .aeadEncrypted sid body :: _, _, cands =>
    match tryKeys cands sid body with
    | none => .error (.msg "openpgp: incorrect key")
    | some decrypted => parseLiteralSequence decrypted
  | p :: rest, _, _ =>
    if config.CheckPacketSequence then
      .error (.msg "openpgp: malformed message: unexpected packet")
    else parseLiteralSequence (p :: rest)

/-- Modelled from the spec: the external `openpgp.ReadMessage` entry point. -/
def ReadMessage (message : List Packet) (keyring : List Entity)
    (prompt : Option PasswordPrompt) (config : Config) :
    Except GoError MessageDetails :=
  readMessageLoop keyring config message prompt []

/-- The decryption handle configuration. The struct itself lives outside the
verified slice; its fields are modelled from the spec (section 3) and from
the uses in decryption_core.go and decryption_handle_builder.go. The clock is
embedded as the unix time it returns. -/
structure decryptionHandle where
  DecryptionKeyRing : Option KeyRing := none
  SessionKeys : List SessionKey := []
  SessionKey : Option SessionKey := none
  Password : Option (List Nat) := none
  VerifyKeyRing : Option KeyRing := none
  VerificationContext : Option VerificationContext := none
  DisableIntendedRecipients : Bool := false
  DisableVerifyTimeCheck : Bool := false
  RetrieveSessionKey : Bool := false
  clock : Int := 0
deriving DecidableEq, Repr

/-- The candidate loop of `decryptStreamWithSessionAndParse`
(decryption_core.go lines 125 to 131): each candidate is tried in list order;
the first success is kept together with its decrypted content and clears the
error variable; otherwise the error of the last attempt remains. -/
def trySessionKeyCandidates (cands : List SessionKey) (stream : List Packet) :
    Option (SessionKey × List Packet) × Option GoError :=
  match cands with
  | [] => (none, none)
  | sk :: rest =>
    match decryptStreamWithSessionKey sk stream with
    | .ok decrypted => (some (sk, decrypted), none)
    | .error e =>
      match trySessionKeyCandidates rest stream with
      | (none, none) => (none, some e)
      | r => r

/-- The key ring used for the inner parse (decryption_core.go lines 144 to
150): verification entities first, then decryption entities. -/
def sessionParseEntities (dh : decryptionHandle) : List Entity :=
  (match dh.VerifyKeyRing with | some kr => kr.entities | none => []) ++
  (match dh.DecryptionKeyRing with | some kr => kr.entities | none => [])

/-- The config used for the inner parse (decryption_core.go lines 136 to
154): constant clock, known notations when a verification context is set, the
intended-recipients flag, and the packet-sequence check disabled. -/
def sessionParseConfig (dh : decryptionHandle) : Config :=
  { Time := dh.clock,
    KnownNotations := dh.VerificationContext.isSome,
    CheckIntendedRecipients := some (!dh.DisableIntendedRecipients),
    CheckPacketSequence := false }

/-- `decryptStreamWithSessionAndParse` (decryption_core.go lines 119 to 162):
try the session key candidates in order; without a selected key return the
last error wrapped (which, as in `errors.Wrap`, is nil when no candidate was
ever tried); with a selected key re-parse the decrypted content with the
packet-sequence check disabled, record the selected key bytes on the message
details and wrap the unverified body in a `checkReader`. The Go triple
return (details, verify time, error) is kept. -/
def decryptStreamWithSessionAndParse (dh : decryptionHandle)
    (messageReader : List Packet) :
    Option MessageDetails × Int × Option GoError :=
  match trySessionKeyCandidates dh.SessionKeys messageReader with
  | (none, err) =>
    (none, 0, GoError.wrapOpt err "gopenpgp: unable to decrypt message with session key")
  | (some (selectedSessionKey, decrypted), _) =>
    match ReadMessage decrypted (sessionParseEntities dh) none (sessionParseConfig dh) with
    | .error e => (none, 0, some (.wrap e "gopenpgp: unable to decode symmetric packet"))
    | .ok md =>
      (some { md with SessionKey := some selectedSessionKey.Key,
                      UnverifiedBody := .check md.UnverifiedBody },
       (sessionParseConfig dh).Time, none)

/-- The reader handed back to the caller. The struct lives outside the
verified slice; its fields are modelled from the construction sites in
decryption_core.go (lines 82 to 90 and 108 to 116): message details, the
possibly sanitized internal reader, the verification inputs, and the
read-all flag passed as false. -/
structure VerifyDataReader where
  details : MessageDetails
  internalReader : PlainReader
  verifyKeyRing : Option KeyRing := none
  verifyTime : Int := 0
  disableVerifyTimeCheck : Bool := false
  readAll : Bool := false
  verificationContext : Option VerificationContext := none
deriving DecidableEq, Repr

/-- The sanitizer condition of decryption_core.go lines 75 to 77: the message
is signed, it has signature candidates, and the last candidate declares the
text signature type. -/
def sanitizeCondition (messageDetails : MessageDetails) : Bool :=
  messageDetails.IsSigned && !messageDetails.SignatureCandidates.isEmpty &&
    ((messageDetails.SignatureCandidates.getLastD { SigType := SigType.binary }).SigType
      == SigType.text)

/-- The shared tail of `decryptStream` and `decryptStreamWithSession`
(decryption_core.go lines 73 to 90 and 99 to 116): wrap the unverified body
in the sanitizing filter when the last signature candidate has text type,
then build the reader. -/
def packVerifyDataReader (dh : decryptionHandle) (messageDetails : MessageDetails)
    (verifyTime : Int) : VerifyDataReader :=
  let internalReader :=
    if sanitizeCondition messageDetails then PlainReader.sanitize messageDetails.UnverifiedBody
    else messageDetails.UnverifiedBody
  { details := messageDetails,
    internalReader := internalReader,
    verifyKeyRing := dh.VerifyKeyRing,
    verifyTime := verifyTime,
    disableVerifyTimeCheck := dh.DisableVerifyTimeCheck,
    readAll := false,
    verificationContext := dh.VerificationContext }

/-- The entity list of `decryptStream` (decryption_core.go lines 37 to 48):
decryption entities when a decryption key ring is set, then verification
entities. -/
def decryptEntries (dh : decryptionHandle) : List Entity :=
  (match dh.DecryptionKeyRing with | some kr => kr.entities | none => []) ++
  (match dh.VerifyKeyRing with | some kr => kr.entities | none => [])

/-- The config of `decryptStream` (decryption_core.go lines 38 to 54):
session-key caching per the retrieve flag, the intended-recipients check only
when a decryption key ring is set, a constant clock, and known notations when
a verification context is set. -/
def decryptConfig (dh : decryptionHandle) : Config :=
  { CacheSessionKey := dh.RetrieveSessionKey,
    CheckIntendedRecipients :=
      match dh.DecryptionKeyRing with
      | some _ => some (!dh.DisableIntendedRecipients)
      | none => none,
    Time := dh.clock,
    KnownNotations := dh.VerificationContext.isSome }

/-- `decryptStream` (decryption_core.go lines 36 to 91): with a decryption
key ring the message is read with the private keys and no prompt; otherwise
it is read with the one-shot password prompt, and any failure is reported as
the generic wrong-password-or-malformed error. -/
def decryptStream (dh : decryptionHandle) (encryptedMessage : List Packet) :
    Except GoError VerifyDataReader :=
  match dh.DecryptionKeyRing with
  | some _ =>
    match ReadMessage encryptedMessage (decryptEntries dh) none (decryptConfig dh) with
    | .error e => .error (.wrap e "gopenpgp: decrypting message with private keys failed")
    | .ok messageDetails => .ok (packVerifyDataReader dh messageDetails (decryptConfig dh).Time)
  | none =>
    match ReadMessage encryptedMessage (decryptEntries dh)
        (createPasswordPrompt dh.Password) (decryptConfig dh) with
    | .error _ =>
      .error (.msg "gopenpgp: error in reading password protected message: wrong password or malformed message")
    | .ok messageDetails => .ok (packVerifyDataReader dh messageDetails (decryptConfig dh).Time)

/-- `decryptStreamWithSession` (decryption_core.go lines 93 to 117): parse
with the session key candidates, wrap an error, and otherwise build the
reader with the same sanitizing tail. A nil details value with a nil error
(possible only for an empty candidate list) makes the Go code dereference a
nil pointer; that crash is modelled as a panic error value. -/
def decryptStreamWithSession (dh : decryptionHandle)
    (dataPacketReader : List Packet) : Except GoError VerifyDataReader :=
  match decryptStreamWithSessionAndParse dh dataPacketReader with
  | (_, _, some e) => .error (.wrap e "gopenpgp: error in reading message")
  | (none, _, none) =>
    .error (.msg "panic: runtime error: invalid memory address or nil pointer dereference")
  | (some messageDetails, verifyTime, none) =>
    .ok (packVerifyDataReader dh messageDetails verifyTime)

/-- The entity list of the detached password-or-keys branch
(decryption_core.go lines 227 to 230): only the decryption entities. -/
def detachedEntries (dh : decryptionHandle) : List Entity :=
  match dh.DecryptionKeyRing with
  | some kr => kr.entities
  | none => []

/-- The config of the detached data-stream read (decryption_core.go lines 223
to 226): session-key caching and the constant clock only. -/
def detachedConfigData (dh : decryptionHandle) : Config :=
  { CacheSessionKey := dh.RetrieveSessionKey,
    Time := dh.clock }

/-- The config of the detached signature-stream read (decryption_core.go
lines 239 to 240): the data config with the packet-sequence check disabled. -/
def detachedConfigSig (dh : decryptionHandle) : Config :=
  { detachedConfigData dh with CheckPacketSequence := false }

/-- Modelled from the spec: `verifyingDetachedReader` (spec sections 4.4 and
4.5), defined outside the verified slice, binds the data plaintext with the
detached signature payload into a reader whose fresh details carry no literal
metadata and no session key; the caller of decryption_core.go then fills
those two fields in. -/
def verifyingDetachedReader (body : PlainReader) (signature : PlainReader)
    (verifyKeyRing : Option KeyRing) (verificationContext : Option VerificationContext)
    (disableVerifyTimeCheck : Bool) (_config : Config) (verifyTime : Int) :
    Except GoError VerifyDataReader :=
  .ok { details := { IsSigned := true,
                     SignatureCandidates := [],
                     UnverifiedBody := signature,
                     LiteralData := none,
                     SessionKey := none },
        internalReader := body,
        verifyKeyRing := verifyKeyRing,
        verifyTime := verifyTime,
        disableVerifyTimeCheck := disableVerifyTimeCheck,
        readAll := false,
        verificationContext := verificationContext }

/-- The shared tail of `decryptStreamAndVerifyDetached` (decryption_core.go
lines 248 to 269): build the verifying reader over the data plaintext and the
signature payload, then overwrite its literal metadata and session key with
the ones of the data stream. -/
def finishDetached (dh : decryptionHandle) (mdData : MessageDetails)
    (signature : PlainReader) : Except GoError VerifyDataReader :=
  let config : Config := { CheckIntendedRecipients := some (!dh.DisableIntendedRecipients) }
  match verifyingDetachedReader mdData.UnverifiedBody signature dh.VerifyKeyRing
      dh.VerificationContext dh.DisableVerifyTimeCheck config dh.clock with
  | .error e => .error e
  | .ok sigVerifyReader =>
    .ok { sigVerifyReader with
          details := { sigVerifyReader.details with
                       LiteralData := mdData.LiteralData,
                       SessionKey := mdData.SessionKey } }

/-- `decryptStreamAndVerifyDetached` (decryption_core.go lines 204 to 270):
with session keys configured both streams go through the session-key parse
with the same candidate list; otherwise both go through the private-key or
password read, each with its own freshly created one-shot prompt, the
signature stream with the packet-sequence check disabled. The decrypted
signature stream body becomes the signature payload. -/
def decryptStreamAndVerifyDetached (dh : decryptionHandle)
    (encryptedData encryptedSignature : List Packet) :
    Except GoError VerifyDataReader :=
  if 0 < dh.SessionKeys.length then
    match decryptStreamWithSessionAndParse dh encryptedData with
    | (_, _, some e) => .error (.wrap e "gopenpgp: error in reading data message")
    | (none, _, none) =>
      .error (.msg "panic: runtime error: invalid memory address or nil pointer dereference")
    | (some mdData, _, none) =>
      match decryptStreamWithSessionAndParse dh encryptedSignature with
      | (_, _, some e) => .error (.wrap e "gopenpgp: error in reading detached signature message")
      | (none, _, none) =>
        .error (.msg "panic: runtime error: invalid memory address or nil pointer dereference")
      | (some mdSig, _, none) => finishDetached dh mdData mdSig.UnverifiedBody
  else
    match ReadMessage encryptedData (detachedEntries dh)
        (createPasswordPrompt dh.Password) (detachedConfigData dh) with
    | .error e => .error (.wrap e "gopenpgp: error in reading data message")
    | .ok mdData =>
      match ReadMessage encryptedSignature (detachedEntries dh)
          (createPasswordPrompt dh.Password) (detachedConfigSig dh) with
      | .error e => .error (.wrap e "gopenpgp: error in reading detached signature message")
      | .ok mdSig => finishDetached dh mdData mdSig.UnverifiedBody

/-- Modelled from the spec: the fresh default decryption handle (spec section
4.1) carries no credentials, no verification configuration, cleared flags,
and the given default clock. -/
def defaultDecryptionHandle (clock : Int) : decryptionHandle :=
  { clock := clock }

/-- Modelled from the spec: handle validation (spec section 4.1) requires
exactly one unlock source - private keys, a password, or session keys - and
fails with the missing-credential error otherwise. -/
def decryptionHandle.validate (dh : decryptionHandle) : Option GoError :=
  let sources :=
    (if dh.DecryptionKeyRing.isSome then 1 else 0) +
    (if dh.Password.isSome then 1 else 0) +
    (if !dh.SessionKeys.isEmpty || dh.SessionKey.isSome then 1 else 0)
  if sources = 1 then none
  else some (.msg "gopenpgp: invalid decryption handle: missing unlock credential")

/-- The decryption handle builder (decryption_handle_builder.go lines 5 to
9): the draft handle, the default clock, and the stored error. -/
structure DecryptionHandleBuilder where
  handle : decryptionHandle
  defaultClock : Int
  err : Option GoError := none
deriving DecidableEq, Repr

/-- `newDecryptionHandleBuilder` (decryption_handle_builder.go lines 11 to
16). -/
def newDecryptionHandleBuilder (clock : Int) : DecryptionHandleBuilder :=
  { handle := defaultDecryptionHandle clock, defaultClock := clock }

/-- `DecryptionHandleBuilder.DecryptionKeys` (decryption_handle_builder.go
lines 22 to 25). -/
def DecryptionHandleBuilder.DecryptionKeys (dpb : DecryptionHandleBuilder)
    (decryptionKeyRing : KeyRing) : DecryptionHandleBuilder :=
  { dpb with handle := { dpb.handle with DecryptionKeyRing := some decryptionKeyRing } }

/-- `DecryptionHandleBuilder.DecryptionKey` (decryption_handle_builder.go
lines 27 to 36): build or extend the decryption key ring and store the
outcome of this call, success or failure, as the builder error. -/
def DecryptionHandleBuilder.DecryptionKey (dpb : DecryptionHandleBuilder)
    (decryptionKey : Key) : DecryptionHandleBuilder :=
  match dpb.handle.DecryptionKeyRing with
  | none =>
    match NewKeyRing decryptionKey with
    | .ok kr =>
      { dpb with handle := { dpb.handle with DecryptionKeyRing := some kr }, err := none }
    | .error e =>
      { dpb with handle := { dpb.handle with DecryptionKeyRing := none }, err := some e }
  | some kr =>
    match kr.AddKey decryptionKey with
    | .ok kr2 =>
      { dpb with handle := { dpb.handle with DecryptionKeyRing := some kr2 }, err := none }
    | .error e => { dpb with err := some e }

/-- `DecryptionHandleBuilder.SessionKey` (decryption_handle_builder.go lines
42 to 45). -/
def DecryptionHandleBuilder.SessionKey (dpb : DecryptionHandleBuilder)
    (sessionKey : SessionKey) : DecryptionHandleBuilder :=
  { dpb with handle := { dpb.handle with SessionKey := some sessionKey } }

/-- `DecryptionHandleBuilder.Password` (decryption_handle_builder.go lines 51
to 54). -/
def DecryptionHandleBuilder.Password (dpb : DecryptionHandleBuilder)
    (password : List Nat) : DecryptionHandleBuilder :=
  { dpb with handle := { dpb.handle with Password := some password } }

/-- `DecryptionHandleBuilder.VerifyKeys` (decryption_handle_builder.go lines
58 to 61). -/
def DecryptionHandleBuilder.VerifyKeys (dpb : DecryptionHandleBuilder)
    (verifyKeys : KeyRing) : DecryptionHandleBuilder :=
  { dpb with handle := { dpb.handle with VerifyKeyRing := some verifyKeys } }

/-- `DecryptionHandleBuilder.VerifyKey` (decryption_handle_builder.go lines
63 to 72): build or extend the verification key ring and store the outcome of
this call as the builder error. -/
def DecryptionHandleBuilder.VerifyKey (dpb : DecryptionHandleBuilder)
    (key : Key) : DecryptionHandleBuilder :=
  match dpb.handle.VerifyKeyRing with
  | none =>
    match NewKeyRing key with
    | .ok kr =>
      { dpb with handle := { dpb.handle with VerifyKeyRing := some kr }, err := none }
    | .error e =>
      { dpb with handle := { dpb.handle with VerifyKeyRing := none }, err := some e }
  | some kr =>
    match kr.AddKey key with
    | .ok kr2 =>
      { dpb with handle := { dpb.handle with VerifyKeyRing := some kr2 }, err := none }
    | .error e => { dpb with err := some e }

/-- `DecryptionHandleBuilder.VerificationContext`
(decryption_handle_builder.go lines 76 to 79). -/
def DecryptionHandleBuilder.VerificationContext (dpb : DecryptionHandleBuilder)
    (verifyContext : VerificationContext) : DecryptionHandleBuilder :=
  { dpb with handle := { dpb.handle with VerificationContext := some verifyContext } }

/-- `DecryptionHandleBuilder.VerifyTime` (decryption_handle_builder.go lines
83 to 86). -/
def DecryptionHandleBuilder.VerifyTime (dpb : DecryptionHandleBuilder)
    (unixTime : Int) : DecryptionHandleBuilder :=
  { dpb with handle := { dpb.handle with clock := unixTime } }

/-- `DecryptionHandleBuilder.DisableVerifyTimeCheck`
(decryption_handle_builder.go lines 90 to 93). -/
def DecryptionHandleBuilder.DisableVerifyTimeCheck (dpb : DecryptionHandleBuilder) :
    DecryptionHandleBuilder :=
  { dpb with handle := { dpb.handle with DisableVerifyTimeCheck := true } }

/-- `DecryptionHandleBuilder.DisableIntendedRecipients`
(decryption_handle_builder.go lines 98 to 101). -/
def DecryptionHandleBuilder.DisableIntendedRecipients (dpb : DecryptionHandleBuilder) :
    DecryptionHandleBuilder :=
  { dpb with handle := { dpb.handle with DisableIntendedRecipients := true } }

/-- `DecryptionHandleBuilder.RetrieveSessionKey`
(decryption_handle_builder.go lines 105 to 108). -/
def DecryptionHandleBuilder.RetrieveSessionKey (dpb : DecryptionHandleBuilder) :
    DecryptionHandleBuilder :=
  { dpb with handle := { dpb.handle with RetrieveSessionKey := true } }

/-- `DecryptionHandleBuilder.New` (decryption_handle_builder.go lines 113 to
124): a stored error fails the build; then validation runs and its error is
stored and returned; on success the built handle is returned and the
builder draft resets to a fresh default with the default clock. -/
def DecryptionHandleBuilder.New (dpb : DecryptionHandleBuilder) :
    Except GoError decryptionHandle × DecryptionHandleBuilder :=
  match dpb.err with
  | some e => (.error e, dpb)
  | none =>
    match dpb.handle.validate with
    | some e => (.error e, { dpb with err := some e })
    | none =>
      (.ok dpb.handle, { dpb with handle := defaultDecryptionHandle dpb.defaultClock })

/-- `DecryptionHandleBuilder.Error` (decryption_handle_builder.go lines 126
to 128). -/
def DecryptionHandleBuilder.Error (dpb : DecryptionHandleBuilder) : Option GoError :=
  dpb.err

/-- A line holds no carriage-return and no line-feed byte. -/
def cleanLine (l : List Nat) : Bool :=
  l.all (fun b => !(b == 13) && !(b == 10))

/-- Every line of the list is clean. -/
def cleanLines (lines : List (List Nat)) : Bool :=
  lines.all cleanLine

/-- Lines joined by a separator byte sequence. -/
def joinSep (sep : List Nat) : List (List Nat) → List Nat
  | [] => []
  | [l] => l
  | l :: rest => l ++ sep ++ joinSep sep rest

/-- The session-key parse produced message details. -/
def sessionParseOk (r : Option MessageDetails × Int × Option GoError) : Bool :=
  r.1.isSome

/-- The literal metadata recovered from the data stream alone, following the
two unlock branches of `decryptStreamAndVerifyDetached`; the signature stream
is not an input. -/
def detachedDataLiteral (dh : decryptionHandle) (encryptedData : List Packet) :
    Option LiteralMetadata :=
  if 0 < dh.SessionKeys.length then
    match decryptStreamWithSessionAndParse dh encryptedData with
    | (some md, _, _) => md.LiteralData
    | (none, _, _) => none
  else
    match ReadMessage encryptedData (detachedEntries dh)
        (createPasswordPrompt dh.Password) (detachedConfigData dh) with
    | .ok md => md.LiteralData
    | .error _ => none

/-- The message details list a signature candidate with the text type. -/
def hasTextCandidate (md : MessageDetails) : Bool :=
  md.SignatureCandidates.any (fun c => c.SigType == SigType.text)

/-- Example handle for the session-key ordering claim: two candidates, the
working one in last position. -/
def c1dh : decryptionHandle :=
  { SessionKeys := [{ Key := [9], algo := some 7 }, { Key := [5], algo := some 9 }],
    clock := 42 }

/-- Example decrypted content: a bare literal-data packet. -/
def c1body : List Packet :=
  [.literalData { filename := "filename.txt" } [72, 105]]

/-- The message details of the parsed example content. -/
def c1md0 : MessageDetails :=
  { IsSigned := false, SignatureCandidates := [],
    UnverifiedBody := .raw [72, 105],
    LiteralData := some { filename := "filename.txt" } }

/-- Example handle with an empty candidate list. -/
def c1emptyDh : decryptionHandle := { SessionKeys := [] }

/-- Example handle for the malformed-packet claim. -/
def c6dh : decryptionHandle := { SessionKeys := [{ Key := [5], algo := some 9 }] }

/-- Example handle for the relaxed re-parse claim. -/
def c7dh : decryptionHandle := { SessionKeys := [{ Key := [3], algo := some 9 }], clock := 5 }

/-- Example decrypted content with a one-pass signature around the literal. -/
def c7body : List Packet :=
  [.onePassSignature .binary, .literalData { filename := "a" } [65],
   .signaturePacket .binary]

/-- The message details of the parsed signed example content. -/
def c7md0 : MessageDetails :=
  { IsSigned := true, SignatureCandidates := [{ SigType := .binary }],
    UnverifiedBody := .raw [65],
    LiteralData := some { filename := "a" } }

/-- Example handle for the sanitizer counterexample. -/
def c3dh : decryptionHandle := { SessionKeys := [{ Key := [1], algo := some 9 }] }

/-- Example message carrying a text-typed signature candidate first and a
binary-typed one last, with a CRLF body. -/
def c3stream : List Packet :=
  [.symmetricallyEncrypted [1]
     [.onePassSignature .text, .onePassSignature .binary,
      .literalData { filename := "" } [13, 10],
      .signaturePacket .binary, .signaturePacket .text]]

/-- Observation of a reader: whether a text candidate is present, and the
bytes the caller reads. -/
def c3observe (r : VerifyDataReader) : Bool × List Nat :=
  (hasTextCandidate r.details, r.internalReader.readAll)

/-- Example handle for the sanitizer witness. -/
def c3wdh : decryptionHandle := { SessionKeys := [{ Key := [2], algo := some 9 }] }

/-- Example message with one text-typed signature and a CRLF body. -/
def c3wstream : List Packet :=
  [.symmetricallyEncrypted [2]
     [.onePassSignature .text, .literalData { filename := "" } [13, 10],
      .signaturePacket .text]]

/-- The reader the sanitizer witness message decrypts to. -/
def c3wreader : VerifyDataReader :=
  { details := { IsSigned := true, SignatureCandidates := [{ SigType := .text }],
                 UnverifiedBody := .check (.raw [13, 10]),
                 LiteralData := some { filename := "" },
                 SessionKey := some [2] },
    internalReader := .sanitize (.check (.raw [13, 10])),
    verifyKeyRing := none, verifyTime := 0, disableVerifyTimeCheck := false,
    readAll := false, verificationContext := none }

/-- Example handle with two session key candidates for the detached claim. -/
def c4dh : decryptionHandle :=
  { SessionKeys := [{ Key := [1], algo := some 9 }, { Key := [2], algo := some 9 }] }

/-- Example detached data stream, locked under the first candidate. -/
def c4data : List Packet :=
  [.symmetricallyEncrypted [1] [.literalData { filename := "d" } [68]]]

/-- Example detached signature stream, locked under the second candidate. -/
def c4sig : List Packet :=
  [.symmetricallyEncrypted [2] [.literalData { filename := "s" } [83]]]

/-- Example handle for the detached literal-metadata claim. -/
def c8dh : decryptionHandle := { SessionKeys := [{ Key := [1], algo := some 9 }] }

/-- Example detached data stream for the metadata claim. -/
def c8data : List Packet :=
  [.symmetricallyEncrypted [1] [.literalData { filename := "d" } [68]]]

/-- One example detached signature stream. -/
def c8sig : List Packet :=
  [.symmetricallyEncrypted [1] [.literalData { filename := "s" } [83]]]

/-- Another example detached signature stream with different content. -/
def c8sig2 : List Packet :=
  [.symmetricallyEncrypted [1] [.literalData { filename := "x" } [88]]]

/-- The reader produced for the first signature stream. -/
def c8r : VerifyDataReader :=
  { details := { IsSigned := true, SignatureCandidates := [],
                 UnverifiedBody := .check (.raw [83]),
                 LiteralData := some { filename := "d" },
                 SessionKey := some [1] },
    internalReader := .check (.raw [68]),
    verifyKeyRing := none, verifyTime := 0, disableVerifyTimeCheck := false,
    readAll := false, verificationContext := none }

/-- The reader produced for the second signature stream. -/
def c8r2 : VerifyDataReader :=
  { details := { IsSigned := true, SignatureCandidates := [],
                 UnverifiedBody := .check (.raw [88]),
                 LiteralData := some { filename := "d" },
                 SessionKey := some [1] },
    internalReader := .check (.raw [68]),
    verifyKeyRing := none, verifyTime := 0, disableVerifyTimeCheck := false,
    readAll := false, verificationContext := none }

/-- Example builder with a password configured. -/
def c5dpb : DecryptionHandleBuilder := (newDecryptionHandleBuilder 7).Password [1]

/-- The reset builder the example build leaves behind. -/
def c5reset : DecryptionHandleBuilder :=
  { handle := defaultDecryptionHandle 7, defaultClock := 7, err := none }

/-- A key the key-ring collaborator rejects. -/
def c9bad : Key := { keyId := 1, bad := true }

/-- A key the key-ring collaborator accepts. -/
def c9good : Key := { keyId := 2 }

/-- Example key ring for the precedence claim. -/
def c10kr : KeyRing := { entities := [{ keyId := 4, canDecrypt := true }] }

/-- Example handle with both a decryption key ring and a password. -/
def c10dh : decryptionHandle := { DecryptionKeyRing := some c10kr, Password := some [1] }

/-! Shared lemmas about the session-key decryption path. -/

/-- Key-exchange packets at the head of the stream are skipped. -/
theorem decryptStreamWithSessionKey_append_keys (sk : SessionKey)
    (kps stream : List Packet) (hk : ∀ p ∈ kps, p.isKeyExchange = true) :
    decryptStreamWithSessionKey sk (kps ++ stream) =
      decryptStreamWithSessionKey sk stream := by
  induction kps with
  | nil => rfl
  | cons p rest ih =>
    have hp := hk p (List.mem_cons_self p rest)
    have hrest : ∀ q ∈ rest, q.isKeyExchange = true :=
      fun q hq => hk q (List.mem_cons_of_mem p hq)
    cases p with
    | encryptedKey kid skb =>
      simp only [List.cons_append, decryptStreamWithSessionKey]
      exact ih hrest
    | symmetricKeyEncrypted pw skb =>
      simp only [List.cons_append, decryptStreamWithSessionKey]
      exact ih hrest
    | symmetricallyEncrypted sid body => simp [Packet.isKeyExchange] at hp
    | aeadEncrypted sid body => simp [Packet.isKeyExchange] at hp
    | onePassSignature t => simp [Packet.isKeyExchange] at hp
    | signaturePacket t => simp [Packet.isKeyExchange] at hp
    | literalData l b => simp [Packet.isKeyExchange] at hp
    | marker => simp [Packet.isKeyExchange] at hp

/-- The single-packet decrypt succeeds exactly when the candidate works. -/
theorem decryptDataPacketWithSessionKey_isOk (sk : SessionKey)
    (sid : List Nat) (body : List Packet) :
    exceptOkB (decryptDataPacketWithSessionKey sk sid body) = sessionKeyWorks sk sid := by
  cases hv : sk.v6 <;> cases ha : sk.algo <;> by_cases hkey : sk.Key = sid <;>
    simp [decryptDataPacketWithSessionKey, packetDecrypt, sessionKeyWorks,
      SessionKey.GetCipherFunc, exceptOkB, hv, ha, hkey]

/-- A working candidate recovers the decrypted content. -/
theorem decryptDataPacketWithSessionKey_ok (sk : SessionKey)
    (sid : List Nat) (body : List Packet) (h : sessionKeyWorks sk sid = true) :
    decryptDataPacketWithSessionKey sk sid body = .ok body := by
  unfold sessionKeyWorks at h
  simp only [Bool.and_eq_true, Bool.or_eq_true, decide_eq_true_eq] at h
  obtain ⟨halgo, hkey⟩ := h
  cases hv : sk.v6 with
  | true => simp [decryptDataPacketWithSessionKey, packetDecrypt, hv, hkey]
  | false =>
    have hsome : sk.algo.isSome = true := by
      cases halgo with
      | inl h6 => rw [hv] at h6; exact absurd h6 (by simp)
      | inr hs => exact hs
    obtain ⟨c, hc⟩ := Option.isSome_iff_exists.mp hsome
    simp [decryptDataPacketWithSessionKey, packetDecrypt, SessionKey.GetCipherFunc,
      hv, hc, hkey]

/-- On a stream of key-exchange packets followed by an encrypted-data packet,
the session-key walk reduces to the single-packet decrypt. -/
theorem decryptStreamWithSessionKey_data (sk : SessionKey) (kps rest : List Packet)
    (sid : List Nat) (body : List Packet)
    (hk : ∀ p ∈ kps, p.isKeyExchange = true) :
    decryptStreamWithSessionKey sk (kps ++ .symmetricallyEncrypted sid body :: rest) =
      decryptDataPacketWithSessionKey sk sid body := by
  rw [decryptStreamWithSessionKey_append_keys sk kps _ hk]
  rfl

/-- When every candidate fails, the loop keeps the error of the last one. -/
theorem trySessionKeyCandidates_fail (cands : List SessionKey) (stream : List Packet)
    (hne : cands ≠ [])
    (hfail : ∀ sk ∈ cands, exceptOkB (decryptStreamWithSessionKey sk stream) = false) :
    ∃ e, decryptStreamWithSessionKey (cands.getLast hne) stream = .error e ∧
      trySessionKeyCandidates cands stream = (none, some e) := by
  induction cands with
  | nil => exact absurd rfl hne
  | cons sk rest ih =>
    cases rest with
    | nil =>
      have hf := hfail sk (List.mem_cons_self sk [])
      cases hr : decryptStreamWithSessionKey sk stream with
      | ok v => rw [hr] at hf; simp [exceptOkB] at hf
      | error e =>
        refine ⟨e, ?_, ?_⟩
        · simpa [List.getLast] using hr
        · simp [trySessionKeyCandidates, hr]
    | cons sk2 rest2 =>
      have hne2 : sk2 :: rest2 ≠ [] := by simp
      have hfail2 : ∀ k ∈ sk2 :: rest2,
          exceptOkB (decryptStreamWithSessionKey k stream) = false :=
        fun k hk2 => hfail k (List.mem_cons_of_mem sk hk2)
      obtain ⟨e, hlast, hloop⟩ := ih hne2 hfail2
      have hf := hfail sk (List.mem_cons_self sk (sk2 :: rest2))
      cases hr : decryptStreamWithSessionKey sk stream with
      | ok v => rw [hr] at hf; simp [exceptOkB] at hf
      | error e1 =>
        refine ⟨e, ?_, ?_⟩
        · rwa [List.getLast_cons hne2]
        · have hstep : trySessionKeyCandidates (sk :: sk2 :: rest2) stream =
              (match decryptStreamWithSessionKey sk stream with
               | .ok decrypted => (some (sk, decrypted), none)
               | .error e1 =>
                 match trySessionKeyCandidates (sk2 :: rest2) stream with
                 | (none, none) => (none, some e1)
                 | r => r) := rfl
          rw [hstep, hr, hloop]

/-- When every candidate fails with one same error, the loop returns it. -/
theorem trySessionKeyCandidates_const_error (cands : List SessionKey)
    (stream : List Packet) (e0 : GoError) (hne : cands ≠ [])
    (hall : ∀ sk : SessionKey, decryptStreamWithSessionKey sk stream = .error e0) :
    trySessionKeyCandidates cands stream = (none, some e0) := by
  have hfail : ∀ sk ∈ cands, exceptOkB (decryptStreamWithSessionKey sk stream) = false := by
    intro sk _
    rw [hall sk]
    rfl
  obtain ⟨e, hlast, hloop⟩ := trySessionKeyCandidates_fail cands stream hne hfail
  rw [hall] at hlast
  cases hlast
  exact hloop

/-- Find at the head when the predicate holds there. -/
theorem find?_cons_pos {α : Type} (p : α → Bool) (a : α) (l : List α)
    (h : p a = true) : (a :: l).find? p = some a := by
  simp [List.find?, h]

/-- Find skips the head when the predicate fails there. -/
theorem find?_cons_neg {α : Type} (p : α → Bool) (a : α) (l : List α)
    (h : p a = false) : (a :: l).find? p = l.find? p := by
  simp [List.find?, h]

/-- The first candidate the find yields is the one the loop selects, together
with its decrypted content. -/
theorem trySessionKeyCandidates_found (cands : List SessionKey) (stream : List Packet)
    (sk : SessionKey)
    (hfind : cands.find? (fun c => exceptOkB (decryptStreamWithSessionKey c stream)) = some sk) :
    ∃ dec, decryptStreamWithSessionKey sk stream = .ok dec ∧
      trySessionKeyCandidates cands stream = (some (sk, dec), none) := by
  induction cands with
  | nil => simp at hfind
  | cons c rest ih =>
    cases hc : exceptOkB (decryptStreamWithSessionKey c stream) with
    | true =>
      rw [find?_cons_pos (fun c => exceptOkB (decryptStreamWithSessionKey c stream)) c rest hc]
        at hfind
      cases hfind
      cases hr : decryptStreamWithSessionKey sk stream with
      | error e => rw [hr] at hc; simp [exceptOkB] at hc
      | ok dec =>
        exact ⟨dec, rfl, by simp [trySessionKeyCandidates, hr]⟩
    | false =>
      rw [find?_cons_neg (fun c => exceptOkB (decryptStreamWithSessionKey c stream)) c rest hc]
        at hfind
      obtain ⟨dec, hdec, hloop⟩ := ih hfind
      cases hr : decryptStreamWithSessionKey c stream with
      | ok v => rw [hr] at hc; simp [exceptOkB] at hc
      | error e =>
        exact ⟨dec, hdec, by simp [trySessionKeyCandidates, hr, hloop]⟩

/-- One unfolding step of the candidate loop. -/
theorem trySessionKeyCandidates_cons (c : SessionKey) (rest : List SessionKey)
    (stream : List Packet) :
    trySessionKeyCandidates (c :: rest) stream =
      (match decryptStreamWithSessionKey c stream with
       | .ok decrypted => (some (c, decrypted), none)
       | .error e =>
         match trySessionKeyCandidates rest stream with
         | (none, none) => (none, some e)
         | r => r) := rfl

/-- With at least one candidate, the loop either selects one or keeps an
error; it never ends with neither. -/
theorem trySessionKeyCandidates_shape (cands : List SessionKey) (stream : List Packet)
    (hne : cands ≠ []) :
    (∃ p, trySessionKeyCandidates cands stream = (some p, none)) ∨
    (∃ e, trySessionKeyCandidates cands stream = (none, some e)) := by
  induction cands with
  | nil => exact absurd rfl hne
  | cons c rest ih =>
    cases hr : decryptStreamWithSessionKey c stream with
    | ok dec => exact Or.inl ⟨(c, dec), by simp [trySessionKeyCandidates_cons, hr]⟩
    | error e =>
      cases rest with
      | nil => exact Or.inr ⟨e, by simp [trySessionKeyCandidates, hr]⟩
      | cons c2 rest2 =>
        rcases ih (by simp) with ⟨p, hp⟩ | ⟨e2, he2⟩
        · exact Or.inl ⟨p, by rw [trySessionKeyCandidates_cons, hr, hp]⟩
        · exact Or.inr ⟨e2, by rw [trySessionKeyCandidates_cons, hr, he2]⟩

/-- A selected candidate with a successful inner parse determines the result
of the session parse. -/
theorem decryptStreamWithSessionAndParse_of_loop (dh : decryptionHandle)
    (stream : List Packet) (first : SessionKey) (dec : List Packet)
    (md0 : MessageDetails)
    (hloop : trySessionKeyCandidates dh.SessionKeys stream = (some (first, dec), none))
    (hparse : ReadMessage dec (sessionParseEntities dh) none (sessionParseConfig dh) = .ok md0) :
    decryptStreamWithSessionAndParse dh stream =
      (some { md0 with SessionKey := some first.Key,
                       UnverifiedBody := .check md0.UnverifiedBody }, dh.clock, none) := by
  simp only [decryptStreamWithSessionAndParse, hloop, hparse]
  rfl

/-- A loop ending in an error determines the result of the session parse. -/
theorem decryptStreamWithSessionAndParse_of_loopFail (dh : decryptionHandle)
    (stream : List Packet) (e : GoError)
    (hloop : trySessionKeyCandidates dh.SessionKeys stream = (none, some e)) :
    decryptStreamWithSessionAndParse dh stream =
      (none, 0, some (.wrap e "gopenpgp: unable to decrypt message with session key")) := by
  simp [decryptStreamWithSessionAndParse, hloop, GoError.wrapOpt]

/-- With at least one candidate, the session parse either succeeds with the
configured clock value or fails with some error. -/
theorem decryptStreamWithSessionAndParse_shape (dh : decryptionHandle)
    (stream : List Packet) (hne : dh.SessionKeys ≠ []) :
    (∃ md, decryptStreamWithSessionAndParse dh stream = (some md, dh.clock, none)) ∨
    (∃ e, decryptStreamWithSessionAndParse dh stream = (none, 0, some e)) := by
  rcases trySessionKeyCandidates_shape dh.SessionKeys stream hne with ⟨⟨first, dec⟩, hp⟩ | ⟨e, he⟩
  · cases hparse : ReadMessage dec (sessionParseEntities dh) none (sessionParseConfig dh) with
    | ok md0 =>
      exact Or.inl ⟨_, decryptStreamWithSessionAndParse_of_loop dh stream first dec md0 hp hparse⟩
    | error e =>
      refine Or.inr ⟨.wrap e "gopenpgp: unable to decode symmetric packet", ?_⟩
      simp [decryptStreamWithSessionAndParse, hp, hparse]
  · exact Or.inr ⟨_, decryptStreamWithSessionAndParse_of_loopFail dh stream e he⟩

/-- Predicates equal on every element find the same first match. -/
theorem find?_congr {α : Type} (p q : α → Bool) (l : List α) (h : ∀ a, p a = q a) :
    l.find? p = l.find? q := by
  have hpq : p = q := funext h
  rw [hpq]

/-- An attempt on a key-prefixed data stream succeeds exactly when the
candidate works on the data packet. -/
theorem decryptStreamWithSessionKey_isOk_works (sk : SessionKey)
    (kps rest : List Packet) (sid : List Nat) (body : List Packet)
    (hk : ∀ p ∈ kps, p.isKeyExchange = true) :
    exceptOkB (decryptStreamWithSessionKey sk
      (kps ++ .symmetricallyEncrypted sid body :: rest)) = sessionKeyWorks sk sid := by
  rw [decryptStreamWithSessionKey_data sk kps rest sid body hk]
  exact decryptDataPacketWithSessionKey_isOk sk sid body

/-- When some candidate works and the inner parse succeeds, the session parse
selects the first working candidate in list order. -/
theorem sessionParse_selects_first (dh : decryptionHandle) (kps rest : List Packet)
    (sid : List Nat) (body : List Packet) (md0 : MessageDetails)
    (hk : ∀ p ∈ kps, p.isKeyExchange = true)
    (hfound : ∃ sk ∈ dh.SessionKeys, sessionKeyWorks sk sid = true)
    (hread : ReadMessage body (sessionParseEntities dh) none (sessionParseConfig dh) = .ok md0) :
    ∃ first, dh.SessionKeys.find? (fun c => sessionKeyWorks c sid) = some first ∧
      decryptStreamWithSessionAndParse dh (kps ++ .symmetricallyEncrypted sid body :: rest) =
        (some { md0 with SessionKey := some first.Key,
                         UnverifiedBody := .check md0.UnverifiedBody }, dh.clock, none) := by
  obtain ⟨sk, hmem, hworks⟩ := hfound
  have hfs : (dh.SessionKeys.find? (fun c => sessionKeyWorks c sid)).isSome = true :=
    List.find?_isSome.mpr ⟨sk, hmem, hworks⟩
  obtain ⟨first, hfind⟩ := Option.isSome_iff_exists.mp hfs
  refine ⟨first, hfind, ?_⟩
  have hfind2 : dh.SessionKeys.find?
      (fun c => exceptOkB (decryptStreamWithSessionKey c
        (kps ++ .symmetricallyEncrypted sid body :: rest))) = some first := by
    rw [find?_congr _ (fun c => sessionKeyWorks c sid) _
      (fun c => decryptStreamWithSessionKey_isOk_works c kps rest sid body hk)]
    exact hfind
  obtain ⟨dec, hdec, hloop⟩ := trySessionKeyCandidates_found _ _ _ hfind2
  have hworksFirst : sessionKeyWorks first sid = true := by
    simpa using List.find?_some hfind
  have hfirstok : decryptStreamWithSessionKey first
      (kps ++ .symmetricallyEncrypted sid body :: rest) = .ok body := by
    rw [decryptStreamWithSessionKey_data first kps rest sid body hk]
    exact decryptDataPacketWithSessionKey_ok first sid body hworksFirst
  rw [hfirstok] at hdec
  injection hdec with hdec
  subst hdec
  exact decryptStreamWithSessionAndParse_of_loop dh _ first body md0 hloop hread

/-- C1 (amended to non-empty candidate lists): in session-key mode, on a
stream of key-exchange packets followed by an encrypted-data packet, an
attempt with a candidate succeeds exactly when the candidate works on that
packet (integrity validated deterministically); when some candidate of the
non-empty ordered list works - at any position - the operation succeeds and
selects the first working candidate in list order, recording its key bytes;
when no candidate works the operation fails with the no-matching-session-key
error wrapping the error of the last attempted candidate. -/
theorem sessionKey_candidates_order_and_failure (dh : decryptionHandle)
    (kps rest : List Packet) (sid : List Nat) (body : List Packet)
    (md0 : MessageDetails)
    (hk : ∀ p ∈ kps, p.isKeyExchange = true)
    (hne : dh.SessionKeys ≠ [])
    (hbody : ReadMessage body (sessionParseEntities dh) none (sessionParseConfig dh) = .ok md0) :
    (∀ sk : SessionKey,
      exceptOkB (decryptStreamWithSessionKey sk
        (kps ++ .symmetricallyEncrypted sid body :: rest)) = sessionKeyWorks sk sid) ∧
    ((∃ sk ∈ dh.SessionKeys, sessionKeyWorks sk sid = true) →
      ∃ first, dh.SessionKeys.find? (fun c => sessionKeyWorks c sid) = some first ∧
        decryptStreamWithSessionAndParse dh (kps ++ .symmetricallyEncrypted sid body :: rest) =
          (some { md0 with SessionKey := some first.Key,
                           UnverifiedBody := .check md0.UnverifiedBody }, dh.clock, none)) ∧
    ((∀ sk ∈ dh.SessionKeys, sessionKeyWorks sk sid = false) →
      ∃ e, decryptStreamWithSessionKey (dh.SessionKeys.getLast hne)
            (kps ++ .symmetricallyEncrypted sid body :: rest) = .error e ∧
        decryptStreamWithSessionAndParse dh (kps ++ .symmetricallyEncrypted sid body :: rest) =
          (none, 0, some (.wrap e "gopenpgp: unable to decrypt message with session key"))) := by
  refine ⟨fun sk => decryptStreamWithSessionKey_isOk_works sk kps rest sid body hk, ?_, ?_⟩
  · intro hfound
    exact sessionParse_selects_first dh kps rest sid body md0 hk hfound hbody
  · intro hallfail
    have hfail : ∀ sk ∈ dh.SessionKeys,
        exceptOkB (decryptStreamWithSessionKey sk
          (kps ++ .symmetricallyEncrypted sid body :: rest)) = false := by
      intro sk hmem
      rw [decryptStreamWithSessionKey_isOk_works sk kps rest sid body hk]
      exact hallfail sk hmem
    obtain ⟨e, hlast, hloop⟩ := trySessionKeyCandidates_fail dh.SessionKeys _ hne hfail
    exact ⟨e, hlast, decryptStreamWithSessionAndParse_of_loopFail dh _ e hloop⟩

/-- Witness for C1: the working candidate sits in last position and is still
selected; the stream decrypts to the literal example content. -/
theorem sessionKey_candidates_order_and_failure_witness :
    decryptStreamWithSessionAndParse c1dh [.symmetricallyEncrypted [5] c1body] =
      (some { c1md0 with SessionKey := some [5],
                         UnverifiedBody := .check c1md0.UnverifiedBody }, 42, none) := by
  obtain ⟨hok, hfound, hfail⟩ :=
    sessionKey_candidates_order_and_failure c1dh [] [] [5] c1body c1md0
      (by intro p hp; cases hp) (by decide) (by rfl)
  obtain ⟨first, hfind, heq⟩ :=
    hfound ⟨{ Key := [5], algo := some 9, v6 := false }, by decide, by decide⟩
  have hfirst : first = { Key := [5], algo := some 9, v6 := false } := by
    have hconc : c1dh.SessionKeys.find? (fun c => sessionKeyWorks c [5]) =
        some { Key := [5], algo := some 9, v6 := false } := by decide
    rw [hfind] at hconc
    exact Option.some.inj hconc
  rw [hfirst] at heq
  exact heq

/-- Counterexample for C1 as stated: with the empty ordered candidate list no
candidate succeeds, yet the operation returns neither message details nor any
error - the wrap of a nil error is nil - instead of failing with the
no-matching-session-key error. -/
theorem sessionKey_empty_candidates_counterexample :
    decryptStreamWithSessionAndParse c1emptyDh [.symmetricallyEncrypted [1] []] =
      (none, 0, none) := rfl

/-- C6: in session-key mode, a packet that is neither a key-exchange packet
nor an encrypted-data packet, encountered after any run of key-exchange
packets and before the first encrypted-data packet, makes every candidate
attempt fail with the invalid-packet-type error, and the whole operation
fails with that malformed-message error wrapped; no message details - hence
no plaintext - are produced. -/
theorem sessionKey_invalid_packet_malformed (dh : decryptionHandle)
    (kps rest : List Packet) (p : Packet)
    (hk : ∀ q ∈ kps, q.isKeyExchange = true)
    (hp1 : p.isKeyExchange = false) (hp2 : p.isEncryptedData = false)
    (hne : dh.SessionKeys ≠ []) :
    (∀ sk : SessionKey, decryptStreamWithSessionKey sk (kps ++ p :: rest) =
      .error (.msg "gopenpgp: invalid packet type")) ∧
    decryptStreamWithSessionAndParse dh (kps ++ p :: rest) =
      (none, 0, some (.wrap (.msg "gopenpgp: invalid packet type")
        "gopenpgp: unable to decrypt message with session key")) := by
  have hall : ∀ sk : SessionKey, decryptStreamWithSessionKey sk (kps ++ p :: rest) =
      .error (.msg "gopenpgp: invalid packet type") := by
    intro sk
    rw [decryptStreamWithSessionKey_append_keys sk kps _ hk]
    cases p with
    | encryptedKey a b => simp [Packet.isKeyExchange] at hp1
    | symmetricKeyEncrypted a b => simp [Packet.isKeyExchange] at hp1
    | symmetricallyEncrypted a b => simp [Packet.isEncryptedData] at hp2
    | aeadEncrypted a b => simp [Packet.isEncryptedData] at hp2
    | onePassSignature t => rfl
    | signaturePacket t => rfl
    | literalData l b => rfl
    | marker => rfl
  refine ⟨hall, ?_⟩
  have hloop := trySessionKeyCandidates_const_error dh.SessionKeys (kps ++ p :: rest)
    (.msg "gopenpgp: invalid packet type") hne hall
  exact decryptStreamWithSessionAndParse_of_loopFail dh _ _ hloop

/-- Witness for C6: a marker packet after one key-exchange packet aborts the
whole session-key decryption with the wrapped invalid-packet-type error. -/
theorem sessionKey_invalid_packet_malformed_witness :
    decryptStreamWithSessionAndParse c6dh [.encryptedKey 7 [1], .marker] =
      (none, 0, some (.wrap (.msg "gopenpgp: invalid packet type")
        "gopenpgp: unable to decrypt message with session key")) :=
  (sessionKey_invalid_packet_malformed c6dh [.encryptedKey 7 [1]] [] .marker
    (by decide) (by decide) (by decide) (by decide)).2

/-- The head of a parsed literal sequence is neither a key-exchange packet
nor an encrypted-data packet. -/
theorem parseLiteralAux_head (ts : List SigType) (body : List Packet)
    (md0 : MessageDetails) (h : parseLiteralAux ts body = .ok md0) :
    ∃ q qs, body = q :: qs ∧ q.isKeyExchange = false ∧ q.isEncryptedData = false := by
  cases body with
  | nil => simp [parseLiteralAux] at h
  | cons q qs =>
    refine ⟨q, qs, rfl, ?_, ?_⟩ <;>
      cases q <;> first | rfl | simp [parseLiteralAux] at h

/-- With the packet-sequence check off, the engine parses a bare literal
sequence directly. -/
theorem readMessage_relaxed_literal (body : List Packet) (md0 : MessageDetails)
    (keyring : List Entity) (config : Config)
    (hcfg : config.CheckPacketSequence = false)
    (h : parseLiteralSequence body = .ok md0) :
    ReadMessage body keyring none config = .ok md0 := by
  obtain ⟨q, qs, hbody, hq1, hq2⟩ := parseLiteralAux_head [] body md0 h
  subst hbody
  cases q with
  | encryptedKey a b => simp [Packet.isKeyExchange] at hq1
  | symmetricKeyEncrypted a b => simp [Packet.isKeyExchange] at hq1
  | symmetricallyEncrypted a b => simp [Packet.isEncryptedData] at hq2
  | aeadEncrypted a b => simp [Packet.isEncryptedData] at hq2
  | onePassSignature t =>
    simp only [ReadMessage, readMessageLoop, hcfg]
    simpa using h
  | signaturePacket t => simp [parseLiteralSequence, parseLiteralAux] at h
  | literalData l b =>
    simp only [ReadMessage, readMessageLoop, hcfg]
    simpa using h
  | marker => simp [parseLiteralSequence, parseLiteralAux] at h

/-- With the packet-sequence check on, the engine rejects the head of a
literal sequence as an unexpected packet. -/
theorem readMessage_strict_literal (body : List Packet) (md0 : MessageDetails)
    (keyring : List Entity) (config : Config)
    (hcfg : config.CheckPacketSequence = true)
    (h : parseLiteralSequence body = .ok md0) :
    ReadMessage body keyring none config =
      .error (.msg "openpgp: malformed message: unexpected packet") := by
  obtain ⟨q, qs, hbody, hq1, hq2⟩ := parseLiteralAux_head [] body md0 h
  subst hbody
  cases q with
  | encryptedKey a b => simp [Packet.isKeyExchange] at hq1
  | symmetricKeyEncrypted a b => simp [Packet.isKeyExchange] at hq1
  | symmetricallyEncrypted a b => simp [Packet.isEncryptedData] at hq2
  | aeadEncrypted a b => simp [Packet.isEncryptedData] at hq2
  | onePassSignature t => simp only [ReadMessage, readMessageLoop, hcfg]; simp
  | signaturePacket t => simp [parseLiteralSequence, parseLiteralAux] at h
  | literalData l b => simp only [ReadMessage, readMessageLoop, hcfg]; simp
  | marker => simp [parseLiteralSequence, parseLiteralAux] at h

/-- C7: in session-key mode, after a candidate decrypts the data packet, the
decrypted content is re-parsed with the same packet grammar but with the
packet-sequence ordering check disabled, and that parse succeeds on
well-formed literal-data content; the same grammar under the outer ordering
rules (packet-sequence check on) rejects that very content as an unexpected
packet. -/
theorem sessionKey_relaxed_reparse (dh : decryptionHandle)
    (kps rest : List Packet) (sid : List Nat) (body : List Packet)
    (md0 : MessageDetails)
    (hk : ∀ p ∈ kps, p.isKeyExchange = true)
    (hfound : ∃ sk ∈ dh.SessionKeys, sessionKeyWorks sk sid = true)
    (hbody : parseLiteralSequence body = .ok md0) :
    (∃ first, dh.SessionKeys.find? (fun c => sessionKeyWorks c sid) = some first ∧
      decryptStreamWithSessionAndParse dh (kps ++ .symmetricallyEncrypted sid body :: rest) =
        (some { md0 with SessionKey := some first.Key,
                         UnverifiedBody := .check md0.UnverifiedBody }, dh.clock, none)) ∧
    ReadMessage body (sessionParseEntities dh) none
        { sessionParseConfig dh with CheckPacketSequence := true } =
      .error (.msg "openpgp: malformed message: unexpected packet") := by
  constructor
  · exact sessionParse_selects_first dh kps rest sid body md0 hk hfound
      (readMessage_relaxed_literal body md0 _ _ rfl hbody)
  · exact readMessage_strict_literal body md0 _ _ rfl hbody

/-- Witness for C7: one-pass signed literal content decrypts and re-parses in
relaxed mode, while the strict grammar rejects it. -/
theorem sessionKey_relaxed_reparse_witness :
    decryptStreamWithSessionAndParse c7dh [.symmetricallyEncrypted [3] c7body] =
      (some { c7md0 with SessionKey := some [3],
                         UnverifiedBody := .check c7md0.UnverifiedBody }, 5, none) ∧
    ReadMessage c7body (sessionParseEntities c7dh) none
        { sessionParseConfig c7dh with CheckPacketSequence := true } =
      .error (.msg "openpgp: malformed message: unexpected packet") := by
  obtain ⟨⟨first, hfind, heq⟩, hstrict⟩ :=
    sessionKey_relaxed_reparse c7dh [] [] [3] c7body c7md0
      (by intro p hp; cases hp)
      ⟨{ Key := [3], algo := some 9, v6 := false }, by decide, by decide⟩
      (by rfl)
  have hfirst : first = { Key := [3], algo := some 9, v6 := false } := by
    have hconc : c7dh.SessionKeys.find? (fun c => sessionKeyWorks c [3]) =
        some { Key := [3], algo := some 9, v6 := false } := by decide
    rw [hfind] at hconc
    exact Option.some.inj hconc
  rw [hfirst] at heq
  exact ⟨heq, hstrict⟩

/-- Leading asymmetric key-exchange packets leave the prompt untouched; the
symmetric key-exchange packet then consumes the single attempt and, the guess
being wrong, the terminal error of the second ask surfaces. -/
theorem readMessageLoop_wrong_password (keyring : List Entity) (config : Config)
    (pwd skPwd wrapped : List Nat) (eks rest : List Packet) (cands : List (List Nat))
    (hek : ∀ p ∈ eks, p.isEncryptedKeyPacket = true)
    (hne : pwd ≠ skPwd) :
    readMessageLoop keyring config (eks ++ .symmetricKeyEncrypted skPwd wrapped :: rest)
      (some { password := pwd, firstTimeCalled := true }) cands =
      .error (.msg "gopenpgp: wrong password in symmetric decryption") := by
  induction eks generalizing cands with
  | nil =>
    simp only [List.nil_append, readMessageLoop]
    simp [skeskUnlock, PasswordPrompt.call, hne]
  | cons p eks ih =>
    have hp := hek p (List.mem_cons_self p eks)
    have hrest : ∀ q ∈ eks, q.isEncryptedKeyPacket = true :=
      fun q hq => hek q (List.mem_cons_of_mem p hq)
    cases p with
    | encryptedKey kid sk =>
      simp only [List.cons_append, readMessageLoop]
      split
      · exact ih (cands ++ [sk]) hrest
      · exact ih cands hrest
    | symmetricKeyEncrypted a b => simp [Packet.isEncryptedKeyPacket] at hp
    | symmetricallyEncrypted a b => simp [Packet.isEncryptedKeyPacket] at hp
    | aeadEncrypted a b => simp [Packet.isEncryptedKeyPacket] at hp
    | onePassSignature t => simp [Packet.isEncryptedKeyPacket] at hp
    | signaturePacket t => simp [Packet.isEncryptedKeyPacket] at hp
    | literalData l b => simp [Packet.isEncryptedKeyPacket] at hp
    | marker => simp [Packet.isEncryptedKeyPacket] at hp

/-- C2: in password mode, the configured password yields a one-shot prompt:
the first invocation returns the password and every later invocation returns
the terminal wrong-password error; consequently, on a message whose symmetric
key-exchange packet was locked under a different passphrase, the read fails
with the wrong-password error after the single attempt - the same password is
never retried - and no message details, hence no plaintext, are produced. -/
theorem password_prompt_one_shot (pwd skPwd wrapped : List Nat)
    (keyring : List Entity) (config : Config) (eks rest : List Packet)
    (hek : ∀ p ∈ eks, p.isEncryptedKeyPacket = true)
    (hne : pwd ≠ skPwd) :
    createPasswordPrompt none = none ∧
    createPasswordPrompt (some pwd) = some { password := pwd, firstTimeCalled := true } ∧
    PasswordPrompt.call { password := pwd, firstTimeCalled := true } =
      (.ok pwd, { password := pwd, firstTimeCalled := false }) ∧
    (∀ p : PasswordPrompt, p.firstTimeCalled = false →
      p.call = (.error (.msg "gopenpgp: wrong password in symmetric decryption"), p)) ∧
    ReadMessage (eks ++ .symmetricKeyEncrypted skPwd wrapped :: rest) keyring
      (createPasswordPrompt (some pwd)) config =
      .error (.msg "gopenpgp: wrong password in symmetric decryption") := by
  refine ⟨rfl, rfl, by simp [PasswordPrompt.call], ?_, ?_⟩
  · intro p hp
    simp [PasswordPrompt.call, hp]
  · exact readMessageLoop_wrong_password keyring config pwd skPwd wrapped eks rest [] hek hne

/-- Witness for C2: passphrase one against a packet locked under passphrase
two fails with the terminal wrong-password error. -/
theorem password_prompt_one_shot_witness :
    ReadMessage [.symmetricKeyEncrypted [2] [7], .symmetricallyEncrypted [7] []] []
      (createPasswordPrompt (some [1])) {} =
      .error (.msg "gopenpgp: wrong password in symmetric decryption") :=
  (password_prompt_one_shot [1] [2] [7] [] {} [] [.symmetricallyEncrypted [7] []]
    (by intro p hp; cases hp) (by decide)).2.2.2.2

/-- C10: in `decryptStream`, a configured decryption key ring selects the
private-key path - the engine is called with no password prompt and the
result does not depend on any configured password; only without a decryption
key ring is the engine called with the one-shot password prompt built from
the configured password. -/
theorem decryptStream_private_keys_precedence (dh : decryptionHandle) (s : List Packet) :
    (∀ kr, dh.DecryptionKeyRing = some kr →
      decryptStream dh s =
        (match ReadMessage s (decryptEntries dh) none (decryptConfig dh) with
         | .error e => .error (.wrap e "gopenpgp: decrypting message with private keys failed")
         | .ok md => .ok (packVerifyDataReader dh md (decryptConfig dh).Time)) ∧
      (∀ pwd, decryptStream { dh with Password := pwd } s = decryptStream dh s)) ∧
    (dh.DecryptionKeyRing = none →
      decryptStream dh s =
        (match ReadMessage s (decryptEntries dh)
            (createPasswordPrompt dh.Password) (decryptConfig dh) with
         | .error _ =>
           .error (.msg "gopenpgp: error in reading password protected message: wrong password or malformed message")
         | .ok md => .ok (packVerifyDataReader dh md (decryptConfig dh).Time))) := by
  constructor
  · intro kr hkr
    constructor
    · simp only [decryptStream, hkr]
    · intro pwd
      have h1 : ({ dh with Password := pwd } : decryptionHandle).DecryptionKeyRing = some kr := hkr
      have he : decryptEntries { dh with Password := pwd } = decryptEntries dh := rfl
      have hc : decryptConfig { dh with Password := pwd } = decryptConfig dh := rfl
      have hp : packVerifyDataReader { dh with Password := pwd } = packVerifyDataReader dh := rfl
      simp only [decryptStream, he, hc, hp]
      simp only [hkr]
  · intro hnone
    simp only [decryptStream, hnone]

/-- A byte other than CR passes through the sanitizer. -/
theorem sanitizeBytes_cons_ne13 (b : Nat) (t : List Nat) (hb : b ≠ 13) :
    sanitizeBytes (b :: t) = b :: sanitizeBytes t := by
  cases t with
  | nil => simp [sanitizeBytes, hb]
  | cons c t2 => simp [sanitizeBytes, hb]

/-- Splitting a clean head of a clean line. -/
theorem cleanLine_cons (b : Nat) (l : List Nat) (h : cleanLine (b :: l) = true) :
    b ≠ 13 ∧ b ≠ 10 ∧ cleanLine l = true := by
  unfold cleanLine at h ⊢
  rw [List.all_cons, Bool.and_eq_true] at h
  obtain ⟨hb, hl⟩ := h
  rw [Bool.and_eq_true] at hb
  obtain ⟨h13, h10⟩ := hb
  refine ⟨?_, ?_, hl⟩
  · intro he; subst he; simp at h13
  · intro he; subst he; simp at h10

/-- The sanitizer passes a clean prefix through unchanged. -/
theorem sanitizeBytes_clean_append (l t : List Nat) (hl : cleanLine l = true) :
    sanitizeBytes (l ++ t) = l ++ sanitizeBytes t := by
  induction l with
  | nil => rfl
  | cons b l2 ih =>
    obtain ⟨h13, _, hl2⟩ := cleanLine_cons b l2 hl
    rw [List.cons_append, sanitizeBytes_cons_ne13 b (l2 ++ t) h13, ih hl2]
    rfl

/-- The sanitizer leaves a clean line unchanged. -/
theorem sanitizeBytes_clean (l : List Nat) (hl : cleanLine l = true) :
    sanitizeBytes l = l := by
  have h := sanitizeBytes_clean_append l [] hl
  rw [List.append_nil, show sanitizeBytes ([] : List Nat) = [] from rfl,
    List.append_nil] at h
  exact h

/-- The first clean line of the list. -/
theorem cleanLines_head (l : List Nat) (rest : List (List Nat))
    (h : cleanLines (l :: rest) = true) : cleanLine l = true := by
  unfold cleanLines at h
  exact (List.all_eq_true.mp h) l (List.mem_cons_self l rest)

/-- The remaining clean lines of the list. -/
theorem cleanLines_tail (l : List Nat) (rest : List (List Nat))
    (h : cleanLines (l :: rest) = true) : cleanLines rest = true := by
  unfold cleanLines at h ⊢
  rw [List.all_cons, Bool.and_eq_true] at h
  exact h.2

/-- A CR-joined rendering of clean lines never starts with LF. -/
theorem joinSep_cr_head_ne10 (lines : List (List Nat)) (hl : cleanLines lines = true)
    (c : Nat) (t : List Nat) (h : joinSep [13] lines = c :: t) : c ≠ 10 := by
  cases lines with
  | nil => simp [joinSep] at h
  | cons l rest =>
    have hcl := cleanLines_head l rest hl
    cases rest with
    | nil =>
      cases l with
      | nil => simp [joinSep] at h
      | cons b l2 =>
        have hb := (cleanLine_cons b l2 hcl).2.1
        have hj : joinSep [13] [b :: l2] = b :: l2 := rfl
        rw [hj] at h
        injection h with h1 _
        rw [← h1]
        exact hb
    | cons l2 rest2 =>
      cases l with
      | nil =>
        have hj : joinSep [13] ([] :: l2 :: rest2) = 13 :: joinSep [13] (l2 :: rest2) := rfl
        rw [hj] at h
        injection h with h1 _
        rw [← h1]
        decide
      | cons b l3 =>
        have hb := (cleanLine_cons b l3 hcl).2.1
        have hj : joinSep [13] ((b :: l3) :: l2 :: rest2) =
            b :: (l3 ++ [13] ++ joinSep [13] (l2 :: rest2)) := by
          simp [joinSep]
        rw [hj] at h
        injection h with h1 _
        rw [← h1]
        exact hb

/-- The sanitizer maps the CRLF, CR and LF renderings of the same clean lines
to one same LF rendering. -/
theorem sanitizeBytes_joinSep (lines : List (List Nat)) (hl : cleanLines lines = true) :
    sanitizeBytes (joinSep [13, 10] lines) = joinSep [10] lines ∧
    sanitizeBytes (joinSep [13] lines) = joinSep [10] lines ∧
    sanitizeBytes (joinSep [10] lines) = joinSep [10] lines := by
  induction lines with
  | nil => exact ⟨rfl, rfl, rfl⟩
  | cons l rest ih =>
    have hcl := cleanLines_head l rest hl
    have hrest := cleanLines_tail l rest hl
    cases rest with
    | nil =>
      refine ⟨?_, ?_, ?_⟩ <;> exact sanitizeBytes_clean l hcl
    | cons l2 rest2 =>
      obtain ⟨ih1, ih2, ih3⟩ := ih hrest
      refine ⟨?_, ?_, ?_⟩
      · show sanitizeBytes (l ++ [13, 10] ++ joinSep [13, 10] (l2 :: rest2)) =
          l ++ [10] ++ joinSep [10] (l2 :: rest2)
        rw [List.append_assoc, sanitizeBytes_clean_append l _ hcl]
        have hs : sanitizeBytes (13 :: 10 :: joinSep [13, 10] (l2 :: rest2)) =
            10 :: sanitizeBytes (joinSep [13, 10] (l2 :: rest2)) := by
          simp [sanitizeBytes]
        have hl1 : ([13, 10] ++ joinSep [13, 10] (l2 :: rest2)) =
            13 :: 10 :: joinSep [13, 10] (l2 :: rest2) := rfl
        rw [hl1, hs, ih1, List.append_assoc]
        rfl
      · show sanitizeBytes (l ++ [13] ++ joinSep [13] (l2 :: rest2)) =
          l ++ [10] ++ joinSep [10] (l2 :: rest2)
        rw [List.append_assoc, sanitizeBytes_clean_append l _ hcl]
        cases htail : joinSep [13] (l2 :: rest2) with
        | nil =>
          have hj : joinSep [10] (l2 :: rest2) = [] := by
            rw [← ih2, htail]
            rfl
          rw [hj]
          simp [sanitizeBytes]
        | cons c t =>
          have hc10 : c ≠ 10 := joinSep_cr_head_ne10 (l2 :: rest2) hrest c t htail
          have hs : sanitizeBytes (13 :: c :: t) = 10 :: sanitizeBytes (c :: t) := by
            simp [sanitizeBytes, hc10]
          have hl1 : ([13] ++ c :: t) = 13 :: c :: t := rfl
          rw [hl1, hs, ← htail, ih2]
          simp [List.append_assoc]
      · show sanitizeBytes (l ++ [10] ++ joinSep [10] (l2 :: rest2)) =
          l ++ [10] ++ joinSep [10] (l2 :: rest2)
        rw [List.append_assoc, sanitizeBytes_clean_append l _ hcl]
        have hl1 : ([10] ++ joinSep [10] (l2 :: rest2)) =
            10 :: joinSep [10] (l2 :: rest2) := rfl
        rw [hl1, sanitizeBytes_cons_ne13 10 _ (by decide), ih3]

/-- Witness for C10: with a key ring configured, replacing the password does
not change the result of the decryption dispatch. -/
theorem decryptStream_private_keys_precedence_witness :
    decryptStream { c10dh with Password := some [9, 9] } [] = decryptStream c10dh [] :=
  ((decryptStream_private_keys_precedence c10dh []).1 c10kr rfl).2 (some [9, 9])

/-- C3 (amended): the sanitizing filter wraps the caller-visible reader
exactly when the decrypted message is signed and its LAST signature candidate
declares the text type - the code assumes one signature type, per its own
comment; in that case the exposed reader is the line-ending-canonicalizing
filter over the unverified body, and the filter maps CR, LF and CRLF
renderings of the same lines to one same normalized form; without a
text-typed last candidate the body is exposed unfiltered. -/
theorem text_signature_sanitizer_last_candidate :
    (∀ (dh : decryptionHandle) (stream : List Packet) (r : VerifyDataReader),
      decryptStreamWithSession dh stream = .ok r →
        (sanitizeCondition r.details = true →
          r.internalReader = .sanitize r.details.UnverifiedBody) ∧
        (sanitizeCondition r.details = false →
          r.internalReader = r.details.UnverifiedBody)) ∧
    (∀ (dh : decryptionHandle) (stream : List Packet) (r : VerifyDataReader),
      decryptStream dh stream = .ok r →
        (sanitizeCondition r.details = true →
          r.internalReader = .sanitize r.details.UnverifiedBody) ∧
        (sanitizeCondition r.details = false →
          r.internalReader = r.details.UnverifiedBody)) ∧
    (∀ lines : List (List Nat), cleanLines lines = true →
      sanitizeBytes (joinSep [13, 10] lines) = joinSep [10] lines ∧
      sanitizeBytes (joinSep [13] lines) = joinSep [10] lines ∧
      sanitizeBytes (joinSep [10] lines) = joinSep [10] lines) := by
  have hpack : ∀ (dh : decryptionHandle) (md : MessageDetails) (vt : Int)
      (r : VerifyDataReader), r = packVerifyDataReader dh md vt →
        (sanitizeCondition r.details = true →
          r.internalReader = .sanitize r.details.UnverifiedBody) ∧
        (sanitizeCondition r.details = false →
          r.internalReader = r.details.UnverifiedBody) := by
    intro dh md vt r hr
    subst hr
    constructor
    · intro hcond
      simp only [packVerifyDataReader] at hcond ⊢
      simp [hcond]
    · intro hcond
      simp only [packVerifyDataReader] at hcond ⊢
      simp [hcond]
  refine ⟨?_, ?_, ?_⟩
  · intro dh stream r hr
    unfold decryptStreamWithSession at hr
    rcases hx : decryptStreamWithSessionAndParse dh stream with ⟨omd, vt, oerr⟩
    rw [hx] at hr
    cases omd with
    | none =>
      cases oerr with
      | some e => cases hr
      | none => cases hr
    | some md =>
      cases oerr with
      | some e => cases hr
      | none =>
        injection hr with hr
        exact hpack dh md vt r hr.symm
  · intro dh stream r hr
    unfold decryptStream at hr
    cases hkr : dh.DecryptionKeyRing with
    | some kr =>
      rw [hkr] at hr
      cases hread : ReadMessage stream (decryptEntries dh) none (decryptConfig dh) with
      | error e => rw [hread] at hr; cases hr
      | ok md =>
        rw [hread] at hr
        injection hr with hr
        exact hpack dh md (decryptConfig dh).Time r hr.symm
    | none =>
      rw [hkr] at hr
      cases hread : ReadMessage stream (decryptEntries dh)
          (createPasswordPrompt dh.Password) (decryptConfig dh) with
      | error e => rw [hread] at hr; cases hr
      | ok md =>
        rw [hread] at hr
        injection hr with hr
        exact hpack dh md (decryptConfig dh).Time r hr.symm
  · intro lines hl
    exact sanitizeBytes_joinSep lines hl

/-- Witness for C3: a message with a single text-typed signature decrypts to
a reader whose exposed stream is the sanitizing filter over the body, and the
caller reads the normalized form of the CRLF body. -/
theorem text_signature_sanitizer_witness :
    decryptStreamWithSession c3wdh c3wstream = .ok c3wreader ∧
    c3wreader.internalReader = .sanitize c3wreader.details.UnverifiedBody ∧
    c3wreader.internalReader.readAll = [10] :=
  ⟨rfl,
   (text_signature_sanitizer_last_candidate.1 c3wdh c3wstream c3wreader rfl).1 rfl,
   rfl⟩

/-- Counterexample for C3 as stated: the decrypted message carries a
text-typed embedded signature (its first candidate), yet because the last
candidate is binary-typed, the caller-visible stream is the raw CRLF body,
not the normalized form. -/
theorem text_signature_existential_counterexample :
    Except.map c3observe (decryptStreamWithSession c3dh c3stream) = .ok (true, [13, 10]) ∧
    sanitizeBytes [13, 10] = [10] := ⟨rfl, rfl⟩

/-- C4: in detached verification, with session keys both streams go through
the session-key parse independently with the same handle - hence the same
full candidate list, so each stream may select its own candidate - and the
operation succeeds exactly when both do, binding the data plaintext and the
decrypted signature payload; without session keys both streams go through the
engine read, each invocation receiving its own freshly created one-shot
password prompt, so the prompt state of one stream cannot affect the other. -/
theorem detached_streams_unlock_paths (dh : decryptionHandle)
    (encryptedData encryptedSignature : List Packet) :
    (dh.SessionKeys ≠ [] →
      (exceptOkB (decryptStreamAndVerifyDetached dh encryptedData encryptedSignature) =
        (sessionParseOk (decryptStreamWithSessionAndParse dh encryptedData) &&
         sessionParseOk (decryptStreamWithSessionAndParse dh encryptedSignature))) ∧
      (∀ r, decryptStreamAndVerifyDetached dh encryptedData encryptedSignature = .ok r →
        ∃ mdD tD mdS tS,
          decryptStreamWithSessionAndParse dh encryptedData = (some mdD, tD, none) ∧
          decryptStreamWithSessionAndParse dh encryptedSignature = (some mdS, tS, none) ∧
          r.details.SessionKey = mdD.SessionKey ∧
          r.internalReader = mdD.UnverifiedBody ∧
          r.details.UnverifiedBody = mdS.UnverifiedBody)) ∧
    (dh.SessionKeys = [] →
      exceptOkB (decryptStreamAndVerifyDetached dh encryptedData encryptedSignature) =
        (exceptOkB (ReadMessage encryptedData (detachedEntries dh)
            (createPasswordPrompt dh.Password) (detachedConfigData dh)) &&
         exceptOkB (ReadMessage encryptedSignature (detachedEntries dh)
            (createPasswordPrompt dh.Password) (detachedConfigSig dh)))) := by
  constructor
  · intro hne
    have hlen : 0 < dh.SessionKeys.length := List.length_pos.mpr hne
    constructor
    · rcases decryptStreamWithSessionAndParse_shape dh encryptedData hne with
        ⟨mdD, hD⟩ | ⟨eD, hD⟩
      · rcases decryptStreamWithSessionAndParse_shape dh encryptedSignature hne with
          ⟨mdS, hS⟩ | ⟨eS, hS⟩
        · simp [decryptStreamAndVerifyDetached, hlen, hD, hS, finishDetached,
            verifyingDetachedReader, exceptOkB, sessionParseOk]
        · simp [decryptStreamAndVerifyDetached, hlen, hD, hS, exceptOkB, sessionParseOk]
      · simp [decryptStreamAndVerifyDetached, hlen, hD, exceptOkB, sessionParseOk]
    · intro r hr
      rcases decryptStreamWithSessionAndParse_shape dh encryptedData hne with
        ⟨mdD, hD⟩ | ⟨eD, hD⟩
      · rcases decryptStreamWithSessionAndParse_shape dh encryptedSignature hne with
          ⟨mdS, hS⟩ | ⟨eS, hS⟩
        · refine ⟨mdD, dh.clock, mdS, dh.clock, hD, hS, ?_, ?_, ?_⟩ <;>
          · simp only [decryptStreamAndVerifyDetached, hlen, if_true, hD, hS,
              finishDetached, verifyingDetachedReader] at hr
            injection hr with hr
            subst hr
            rfl
        · rw [decryptStreamAndVerifyDetached, if_pos hlen, hD, hS] at hr
          cases hr
      · rw [decryptStreamAndVerifyDetached, if_pos hlen, hD] at hr
        cases hr
  · intro hz
    have hlen : ¬ 0 < dh.SessionKeys.length := by simp [hz]
    cases hD : ReadMessage encryptedData (detachedEntries dh)
        (createPasswordPrompt dh.Password) (detachedConfigData dh) with
    | error e =>
      simp [decryptStreamAndVerifyDetached, hlen, hD, exceptOkB]
    | ok mdD =>
      cases hS : ReadMessage encryptedSignature (detachedEntries dh)
          (createPasswordPrompt dh.Password) (detachedConfigSig dh) with
      | error e =>
        simp [decryptStreamAndVerifyDetached, hlen, hD, hS, exceptOkB]
      | ok mdS =>
        simp [decryptStreamAndVerifyDetached, hlen, hD, hS, finishDetached,
          verifyingDetachedReader, exceptOkB]

/-- Witness for C4: the data stream is unlocked by the first candidate and
the signature stream by the second, and the detached operation succeeds. -/
theorem detached_streams_unlock_paths_witness :
    (exceptOkB (decryptStreamAndVerifyDetached c4dh c4data c4sig) =
      (sessionParseOk (decryptStreamWithSessionAndParse c4dh c4data) &&
       sessionParseOk (decryptStreamWithSessionAndParse c4dh c4sig))) ∧
    exceptOkB (decryptStreamAndVerifyDetached c4dh c4data c4sig) = true ∧
    (decryptStreamWithSessionAndParse c4dh c4data).1 =
      some { IsSigned := false, SignatureCandidates := [],
             UnverifiedBody := .check (.raw [68]),
             LiteralData := some { filename := "d" }, SessionKey := some [1] } ∧
    (decryptStreamWithSessionAndParse c4dh c4sig).1 =
      some { IsSigned := false, SignatureCandidates := [],
             UnverifiedBody := .check (.raw [83]),
             LiteralData := some { filename := "s" }, SessionKey := some [2] } :=
  ⟨((detached_streams_unlock_paths c4dh c4data c4sig).1 (by decide)).1, rfl, rfl, rfl⟩

/-- A successful detached read exposes the literal metadata recovered from
the data stream alone. -/
theorem detached_literal_aux (dh : decryptionHandle) (data sig : List Packet)
    (r : VerifyDataReader)
    (h : decryptStreamAndVerifyDetached dh data sig = .ok r) :
    r.details.LiteralData = detachedDataLiteral dh data := by
  unfold decryptStreamAndVerifyDetached at h
  unfold detachedDataLiteral
  by_cases hlen : 0 < dh.SessionKeys.length
  · rw [if_pos hlen] at h ⊢
    rcases hD : decryptStreamWithSessionAndParse dh data with ⟨omd, vt, oerr⟩
    rw [hD] at h
    cases omd with
    | none =>
      cases oerr with
      | some e => cases h
      | none => cases h
    | some mdD =>
      cases oerr with
      | some e => cases h
      | none =>
        rcases hS : decryptStreamWithSessionAndParse dh sig with ⟨omdS, vtS, oerrS⟩
        rw [hS] at h
        cases omdS with
        | none =>
          cases oerrS with
          | some e => cases h
          | none => cases h
        | some mdS =>
          cases oerrS with
          | some e => cases h
          | none =>
            simp only [finishDetached, verifyingDetachedReader] at h
            injection h with h
            subst h
            rfl
  · rw [if_neg hlen] at h ⊢
    cases hD : ReadMessage data (detachedEntries dh)
        (createPasswordPrompt dh.Password) (detachedConfigData dh) with
    | error e => rw [hD] at h; cases h
    | ok mdD =>
      rw [hD] at h
      cases hS : ReadMessage sig (detachedEntries dh)
          (createPasswordPrompt dh.Password) (detachedConfigSig dh) with
      | error e => rw [hS] at h; cases h
      | ok mdS =>
        rw [hS] at h
        simp only [finishDetached, verifyingDetachedReader] at h
        injection h with h
        subst h
        rfl

/-- C8: in detached verification the exposed literal metadata comes from the
data stream alone - it equals a value computed without the signature stream
as an input - so two runs over the same data stream with different signature
streams expose the same literal metadata. -/
theorem detached_literal_metadata_from_data_stream (dh : decryptionHandle)
    (data sig sig2 : List Packet) (r r2 : VerifyDataReader)
    (h : decryptStreamAndVerifyDetached dh data sig = .ok r)
    (h2 : decryptStreamAndVerifyDetached dh data sig2 = .ok r2) :
    r.details.LiteralData = detachedDataLiteral dh data ∧
    r2.details.LiteralData = r.details.LiteralData := by
  have e1 := detached_literal_aux dh data sig r h
  have e2 := detached_literal_aux dh data sig2 r2 h2
  exact ⟨e1, by rw [e1, e2]⟩

/-- Witness for C8: two different signature streams leave the exposed
metadata equal to the data-stream metadata. -/
theorem detached_literal_metadata_from_data_stream_witness :
    c8r.details.LiteralData = detachedDataLiteral c8dh c8data ∧
    c8r2.details.LiteralData = c8r.details.LiteralData :=
  detached_literal_metadata_from_data_stream c8dh c8data c8sig c8sig2 c8r c8r2 rfl rfl

/-- C5: a successful build returns the configured handle and resets the
builder draft to the fresh default over the default clock: no decryption
keys, no session keys, no password, no verify keys, no verification context,
cleared flags, and the default clock - nothing of the built configuration
remains. -/
theorem builder_new_resets_draft (dpb : DecryptionHandleBuilder)
    (h : decryptionHandle) (dpb2 : DecryptionHandleBuilder)
    (hnew : dpb.New = (.ok h, dpb2)) :
    h = dpb.handle ∧
    dpb2.handle = defaultDecryptionHandle dpb.defaultClock ∧
    dpb2.handle.DecryptionKeyRing = none ∧
    dpb2.handle.SessionKeys = [] ∧
    dpb2.handle.SessionKey = none ∧
    dpb2.handle.Password = none ∧
    dpb2.handle.VerifyKeyRing = none ∧
    dpb2.handle.VerificationContext = none ∧
    dpb2.handle.DisableIntendedRecipients = false ∧
    dpb2.handle.DisableVerifyTimeCheck = false ∧
    dpb2.handle.RetrieveSessionKey = false ∧
    dpb2.handle.clock = dpb.defaultClock := by
  unfold DecryptionHandleBuilder.New at hnew
  cases herr : dpb.err with
  | some e =>
    rw [herr] at hnew
    injection hnew with h1 h2
    cases h1
  | none =>
    rw [herr] at hnew
    cases hval : dpb.handle.validate with
    | some e =>
      rw [hval] at hnew
      injection hnew with h1 h2
      cases h1
    | none =>
      rw [hval] at hnew
      injection hnew with h1 h2
      injection h1 with h1
      subst h2
      exact ⟨h1.symm, rfl, rfl, rfl, rfl, rfl, rfl, rfl, rfl, rfl, rfl, rfl⟩

/-- Witness for C5: building from a password-configured builder succeeds and
leaves a fresh draft with no password. -/
theorem builder_new_resets_draft_witness :
    c5dpb.New = (.ok c5dpb.handle, c5reset) ∧
    c5reset.handle.Password = none ∧
    c5dpb.handle.Password = some [1] :=
  ⟨rfl, (builder_new_resets_draft c5dpb c5dpb.handle c5reset rfl).2.2.2.2.2.1, rfl⟩

/-- C9: DecryptionKey and VerifyKey overwrite the stored builder error with
the outcome of this very call, success or failure, independent of any earlier
stored error; in particular, after a failed key addition a later successful
one clears the error and New succeeds. -/
theorem builder_setter_overwrites_error (dpb : DecryptionHandleBuilder) (k : Key) :
    ((dpb.DecryptionKey k).err =
      (match dpb.handle.DecryptionKeyRing with
       | none => exceptErr (NewKeyRing k)
       | some kr => exceptErr (kr.AddKey k))) ∧
    ((dpb.VerifyKey k).err =
      (match dpb.handle.VerifyKeyRing with
       | none => exceptErr (NewKeyRing k)
       | some kr => exceptErr (kr.AddKey k))) ∧
    (∀ (clock : Int) (kb kg : Key), kb.bad = true → kg.bad = false →
      exceptOkB ((((newDecryptionHandleBuilder clock).DecryptionKey kb).DecryptionKey
        kg).New).1 = true) := by
  refine ⟨?_, ?_, ?_⟩
  · cases hkr : dpb.handle.DecryptionKeyRing with
    | none =>
      cases hn : NewKeyRing k with
      | ok kr2 => simp [DecryptionHandleBuilder.DecryptionKey, hkr, hn, exceptErr]
      | error e => simp [DecryptionHandleBuilder.DecryptionKey, hkr, hn, exceptErr]
    | some kr =>
      cases hn : kr.AddKey k with
      | ok kr2 => simp [DecryptionHandleBuilder.DecryptionKey, hkr, hn, exceptErr]
      | error e => simp [DecryptionHandleBuilder.DecryptionKey, hkr, hn, exceptErr]
  · cases hkr : dpb.handle.VerifyKeyRing with
    | none =>
      cases hn : NewKeyRing k with
      | ok kr2 => simp [DecryptionHandleBuilder.VerifyKey, hkr, hn, exceptErr]
      | error e => simp [DecryptionHandleBuilder.VerifyKey, hkr, hn, exceptErr]
    | some kr =>
      cases hn : kr.AddKey k with
      | ok kr2 => simp [DecryptionHandleBuilder.VerifyKey, hkr, hn, exceptErr]
      | error e => simp [DecryptionHandleBuilder.VerifyKey, hkr, hn, exceptErr]
  · intro clock kb kg hb hg
    simp [newDecryptionHandleBuilder, DecryptionHandleBuilder.DecryptionKey,
      NewKeyRing, hb, hg, DecryptionHandleBuilder.New, decryptionHandle.validate,
      defaultDecryptionHandle, exceptOkB]

/-- Witness for C9: a rejected key stores an error, the next accepted key
clears it, and New succeeds. -/
theorem builder_setter_overwrites_error_witness :
    exceptOkB ((((newDecryptionHandleBuilder 0).DecryptionKey c9bad).DecryptionKey
      c9good).New).1 = true :=
  (builder_setter_overwrites_error (newDecryptionHandleBuilder 0) c9good).2.2 0
    c9bad c9good rfl rfl

end Gopenpgp
